import Mathlib

/-!
Verification of the DNS wire codec, domain trie and C bridge of the
xdp-dns repository (src/cpp).  Packets and buffers are embedded as
`List Nat` of byte values; machine reads go through `byteAt`, which
truncates to a byte exactly as the `uint8_t` loads in the source do.
Pointer-typed fields of the C structs (`DNSParseResult::header`,
`DNSQuestion::name_start`) are views into the packet buffer of the caller and are
represented by the numeric offsets that accompany them in the struct
(`name_offset`); all other fields are modelled one-to-one.
-/

namespace XdpDns

/-- Error codes, from include/xdp_dns/common.hpp (enum class Error). -/
inductive Error where
  | success
  | packetTooShort
  | invalidHeader
  | truncatedMessage
  | pointerLoop
  | invalidLabel
  | bufferTooSmall
  | notQuery
deriving DecidableEq, Repr

/-- The integer value of each enumerator of `Error` in common.hpp. -/
def errorCode : Error → Int
  | .success => 0
  | .packetTooShort => -1
  | .invalidHeader => -2
  | .truncatedMessage => -3
  | .pointerLoop => -4
  | .invalidLabel => -5
  | .bufferTooSmall => -6
  | .notQuery => -7

/-- Filter action, from common.hpp (enum class Action). -/
inductive Action where
  | allow
  | block
  | redirect
  | log
deriving DecidableEq, Repr

/-- Filter rule, from common.hpp (struct Rule); `rule_id` is the char
array as a byte list. -/
structure Rule where
  id : Nat
  action : Action
  redirect_ip : Nat
  ttl : Nat
  rule_id : List Nat
deriving DecidableEq, Repr

/-- Read one byte of a buffer; out-of-range reads default to 0 and every
read is reduced mod 256, matching the `uint8_t` loads of the source. -/
def byteAt (data : List Nat) (i : Nat) : Nat :=
  data.getD i 0 % 256

/-- Big-endian 16-bit read at offset `i`: this is what
`ntohs(*(const uint16_t*)(data + i))` computes on the little-endian
targets the code is built for. -/
def be16 (data : List Nat) (i : Nat) : Nat :=
  byteAt data i * 256 + byteAt data (i + 1)

/-- MAX_LABELS from common.hpp. -/
def MAX_LABELS : Nat := 128

/-- MAX_LABEL_LENGTH from common.hpp. -/
def MAX_LABEL_LENGTH : Nat := 63

/-- DNS_HEADER_SIZE from common.hpp. -/
def DNS_HEADER_SIZE : Nat := 12

/-- MIN_DNS_QUERY_SIZE from common.hpp (12 + 5). -/
def MIN_DNS_QUERY_SIZE : Nat := 17

/-- The loop body of `DNSParser::parseName` (src/cpp/src/dns_parser.cpp,
lines 58-123).  Arguments mirror the local state of the C++ loop:
current cursor `offset`, `original_offset`, `jumped`, `jump_count` and
`total_len`.  Returns the error together with the values stored through
`*end_offset` and `*wire_len` (left at the zero initialisers of the caller
on error, exactly as in `DNSParser::parse`). -/
def parseNameGo (data : List Nat) (len : Nat) (offset original_offset : Nat)
    (jumped : Bool) (jump_count total_len : Nat) : Error × Nat × Nat :=
  if _h1 : jump_count < MAX_LABELS then
    if _h2 : offset ≥ len then (.truncatedMessage, 0, 0)
    else
      let label_len := byteAt data offset
      if label_len = 0 then
        (.success, if jumped then original_offset + 2 else offset + 1, total_len + 1)
      else if 192 ≤ label_len then
        if offset + 1 ≥ len then (.truncatedMessage, 0, 0)
        else
          let ptr := (label_len % 64) * 256 + byteAt data (offset + 1)
          if ptr ≥ len then (.pointerLoop, 0, 0)
          else
            parseNameGo data len ptr (if jumped then original_offset else offset)
              true (jump_count + 1) total_len
      else if label_len > MAX_LABEL_LENGTH then (.invalidLabel, 0, 0)
      else if offset + 1 + label_len > len then (.truncatedMessage, 0, 0)
      else
        parseNameGo data len (offset + 1 + label_len) original_offset jumped
          jump_count (total_len + 1 + label_len)
  else (.pointerLoop, 0, 0)
termination_by (MAX_LABELS - jump_count, len - offset)
decreasing_by
  · exact Prod.Lex.left _ _ (by omega)
  · exact Prod.Lex.right _ (by omega)

/-- `DNSParser::parseName(data, len, offset, ...)` entry point. -/
def parseName (data : List Nat) (len offset : Nat) : Error × Nat × Nat :=
  parseNameGo data len offset offset false 0 0

/-- The output struct DNSParseResult (include/xdp_dns/dns_parser.hpp).
The two borrowed pointers (`header`, `question.name_start`) are not
separate data beyond the offsets already stored in the struct and are
omitted; `name_offset` stands for `question.name_offset`. -/
structure DNSParseResult where
  name_offset : Nat
  name_wire_len : Nat
  qtype : Nat
  qclass : Nat
  total_consumed : Nat
  question_end : Nat
  id : Nat
  flags : Nat
  is_query : Bool
deriving DecidableEq, Repr

/-- A zero-filled DNSParseResult, standing for the freshly
declared output struct of a caller. -/
def defaultParseResult : DNSParseResult :=
  ⟨0, 0, 0, 0, 0, 0, 0, 0, false⟩

/-- `DNSParser::parse` (dns_parser.cpp lines 5-56) as a function from
the packet and the pre-call output struct `r0` of the caller to the returned
error and the output struct after the call.  Field writes happen in the
order of the source, so a failing return leaves exactly the fields the
source has written by that point.  The null-pointer guard on
`data`/`result` has no counterpart for total values and is omitted. -/
def parse (data : List Nat) (r0 : DNSParseResult) : Error × DNSParseResult :=
  let len := data.length
  if len < MIN_DNS_QUERY_SIZE then (.packetTooShort, r0)
  else
    -- result->id / flags / is_query are filled from the header view
    let r1 : DNSParseResult :=
      { r0 with
        id := be16 data 0
        flags := be16 data 2
        is_query := be16 data 2 < 32768 }
    if be16 data 4 = 0 then (.invalidHeader, r1)
    else
      let r2 : DNSParseResult := { r1 with name_offset := DNS_HEADER_SIZE }
      let scanned := parseName data len DNS_HEADER_SIZE
      if scanned.1 ≠ .success then (scanned.1, r2)
      else
        let name_end := scanned.2.1
        let r3 : DNSParseResult := { r2 with name_wire_len := scanned.2.2 }
        if name_end + 4 > len then (.truncatedMessage, r3)
        else
          (.success,
            { r3 with
              qtype := be16 data name_end
              qclass := be16 data (name_end + 2)
              total_consumed := name_end + 4
              question_end := name_end + 4 })

/-- ASCII `::tolower` as applied byte-wise by the source (C locale):
only the letters A-Z are shifted. -/
def toLowerB (c : Nat) : Nat :=
  if 65 ≤ c ∧ c ≤ 90 then c + 32 else c

/-- ASCII upper-casing, the normalization named by claim C9 / spec §8
invariant 4 ("the ASCII-uppercased form of d"). -/
def toUpperB (c : Nat) : Nat :=
  if 97 ≤ c ∧ c ≤ 122 then c - 32 else c

/-- The loop of `DNSParser::decodeName` (dns_parser.cpp lines 125-185).
`buf` is the sequence of bytes written to `out_buf` so far (its length
is the running `buf_pos`); the trailing NUL the source writes past
`out_len` is not part of the decoded name and is not modelled.  Returns
the error and the final buffer contents. -/
def decodeNameGo (packet : List Nat) (packet_len : Nat) (offset : Nat)
    (buf : List Nat) (buf_size : Nat) (jump_count : Nat)
    (first_label : Bool) : Error × List Nat :=
  if _h1 : jump_count < MAX_LABELS then
    if _h2 : offset ≥ packet_len then (.truncatedMessage, buf)
    else
      let label_len := byteAt packet offset
      if label_len = 0 then (.success, buf)
      else if 192 ≤ label_len then
        if offset + 1 ≥ packet_len then (.truncatedMessage, buf)
        else
          decodeNameGo packet packet_len
            ((label_len % 64) * 256 + byteAt packet (offset + 1))
            buf buf_size (jump_count + 1) first_label
      else
        if first_label = false ∧ buf.length ≥ buf_size then (.bufferTooSmall, buf)
        else
          let buf1 := if first_label then buf else buf ++ [46]
          if buf1.length + label_len > buf_size then (.bufferTooSmall, buf1)
          else
            decodeNameGo packet packet_len (offset + 1 + label_len)
              (buf1 ++ (List.range label_len).map
                (fun i => toLowerB (byteAt packet (offset + 1 + i))))
              buf_size jump_count false
  else (.pointerLoop, buf)
termination_by (MAX_LABELS - jump_count, packet_len - offset)
decreasing_by
  · exact Prod.Lex.left _ _ (by omega)
  · exact Prod.Lex.right _ (by omega)

/-- `DNSParser::decodeName` entry point: empty buffer, `jump_count = 0`,
`first_label = true`.  On success the decoded length `*out_len` is the
length of the returned list. -/
def decodeName (packet : List Nat) (packet_len offset buf_size : Nat) :
    Error × List Nat :=
  decodeNameGo packet packet_len offset [] buf_size 0 true

-- ==================== Domain trie ====================

/-- Trie node, from include/xdp_dns/domain_trie.hpp (struct TrieNode).
The `unordered_map<string, unique_ptr<TrieNode>>` of children is an
association list from label bytes to child. -/
inductive TrieNode where
  | node (children : List (List Nat × TrieNode))
      (exact_rule : Option Rule) (wildcard_rule : Option Rule)

/-- Children accessor of a trie node. -/
def TrieNode.children : TrieNode → List (List Nat × TrieNode)
  | .node c _ _ => c

/-- The `exact_rule` field of a trie node. -/
def TrieNode.exact_rule : TrieNode → Option Rule
  | .node _ e _ => e

/-- The `wildcard_rule` field of a trie node. -/
def TrieNode.wildcard_rule : TrieNode → Option Rule
  | .node _ _ w => w

/-- `children.find(label)` on the association list. -/
def findChild (cs : List (List Nat × TrieNode)) (l : List Nat) :
    Option TrieNode :=
  match cs with
  | [] => none
  | (k, t) :: rest => if k = l then some t else findChild rest l

/-- Store a child under a label, replacing an existing entry
(`children[label] = ...`). -/
def setChild (cs : List (List Nat × TrieNode)) (l : List Nat)
    (t : TrieNode) : List (List Nat × TrieNode) :=
  match cs with
  | [] => [(l, t)]
  | (k, c) :: rest => if k = l then (l, t) :: rest else (k, c) :: setChild rest l t

/-- The loop of `DomainTrie::matchImpl` (domain_trie.cpp lines 135-163):
walk the labels from `node`, remembering the most recent wildcard rule
seen (`matched_wildcard`), and apply the final-node precedence. -/
def matchImplGo (t : TrieNode) (labels : List (List Nat))
    (matched_wildcard : Option Rule) : Option Rule :=
  match labels with
  | [] =>
    match t.exact_rule with
    | some r => some r
    | none =>
      match t.wildcard_rule with
      | some r => some r
      | none => matched_wildcard
  | l :: rest =>
    let mw := match t.wildcard_rule with
              | some r => some r
              | none => matched_wildcard
    match findChild t.children l with
    | none => mw
    | some c => matchImplGo c rest mw

/-- `DomainTrie::matchImpl(node, labels)` with the initial null
`matched_wildcard`. -/
def matchImpl (t : TrieNode) (labels : List (List Nat)) : Option Rule :=
  matchImplGo t labels none

/-- `DomainTrie::insertImpl` (domain_trie.cpp lines 165-184): descend,
creating missing children, then set the exact or wildcard rule of the
final node. -/
def insertImpl (t : TrieNode) (labels : List (List Nat))
    (is_wildcard : Bool) (rule : Rule) : TrieNode :=
  match labels with
  | [] =>
    match t with
    | .node cs e w =>
      if is_wildcard then .node cs e (some rule) else .node cs (some rule) w
  | l :: rest =>
    let child :=
      match findChild t.children l with
      | some c => c
      | none => .node [] none none
    match t with
    | .node cs e w => .node (setChild cs l (insertImpl child rest is_wildcard rule)) e w

/-- The accumulator loop of `DomainTrie::splitAndReverse`
(domain_trie.cpp lines 111-133) before the final reverse: split on the dot byte 46, dropping empty segments. -/
def splitGo (s : List Nat) (current : List Nat)
    (labels : List (List Nat)) : List (List Nat) :=
  match s with
  | [] => if current.isEmpty then labels else labels ++ [current]
  | c :: rest =>
    if c = 46 then
      if current.isEmpty then splitGo rest [] labels
      else splitGo rest [] (labels ++ [current])
    else splitGo rest (current ++ [c]) labels

/-- `DomainTrie::splitAndReverse(domain)`. -/
def splitAndReverse (dom : List Nat) : List (List Nat) :=
  (splitGo dom [] []).reverse

/-- The DomainTrie state: the root node plus `rule_count_`.  The
`rules_storage_` vector and the lock affect only ownership and
concurrency, not lookup results, and are not modelled. -/
structure DomainTrie where
  root : TrieNode
  rule_count : Nat

/-- A freshly constructed DomainTrie. -/
def emptyTrie : DomainTrie :=
  ⟨.node [] none none, 0⟩

/-- `DomainTrie::insert(domain, domain_len, rule)` (domain_trie.cpp
lines 12-32): empty input is ignored; a leading "*." (only when
`domain_len > 2`) marks a wildcard and is stripped before
lower-casing; `rule_count_` is incremented unconditionally after
`insertImpl`.  The null-rule guard is omitted (rules are values here). -/
def DomainTrie.insert (tr : DomainTrie) (domain : List Nat) (rule : Rule) :
    DomainTrie :=
  if domain.length = 0 then tr
  else if 2 < domain.length ∧ domain.getD 0 0 = 42 ∧ domain.getD 1 0 = 46 then
    let dom := (domain.drop 2).map toLowerB
    ⟨insertImpl tr.root (splitAndReverse dom) true rule, tr.rule_count + 1⟩
  else
    let dom := domain.map toLowerB
    ⟨insertImpl tr.root (splitAndReverse dom) false rule, tr.rule_count + 1⟩

/-- `DomainTrie::match(domain, domain_len)` (domain_trie.cpp lines
38-48); named `matchDomain` because `match` is reserved in Lean. -/
def DomainTrie.matchDomain (tr : DomainTrie) (domain : List Nat) :
    Option Rule :=
  if domain.length = 0 then none
  else matchImpl tr.root (splitAndReverse (domain.map toLowerB))

/-- `DomainTrie::size()`. -/
def DomainTrie.size (tr : DomainTrie) : Nat :=
  tr.rule_count

-- ==================== Response builders ====================

/-- Write one 16-bit value big-endian at offset `i`, as the
`htons`-then-store sequences of the builders do. -/
def write16 (buf : List Nat) (i v : Nat) : List Nat :=
  (buf.set i (v / 256 % 256)).set (i + 1) (v % 256)

/-- Write one 32-bit value big-endian at offset `i`
(`htonl`-then-store). -/
def write32BE (buf : List Nat) (i v : Nat) : List Nat :=
  ((((buf.set i (v / 16777216 % 256)).set (i + 1) (v / 65536 % 256)).set
    (i + 2) (v / 256 % 256)).set (i + 3) (v % 256))

/-- Store a 32-bit host value at offset `i` in machine little-endian byte order (the raw `*(uint32_t*)p = ip` store of an
already network-ordered value). -/
def write32LE (buf : List Nat) (i v : Nat) : List Nat :=
  ((((buf.set i (v % 256)).set (i + 1) (v / 256 % 256)).set
    (i + 2) (v / 65536 % 256)).set (i + 3) (v / 16777216 % 256))

/-- `memcpy(response, query, n)`: the first `n` bytes of the
destination are replaced by the first `n` bytes of the source. -/
def copyBytes (src : List Nat) (n : Nat) (dst : List Nat) : List Nat :=
  src.take n ++ dst.drop n

/-- `memcpy(buf + i, src, src.length)`. -/
def writeList (buf : List Nat) (i : Nat) (src : List Nat) : List Nat :=
  buf.take i ++ src ++ buf.drop (i + src.length)

/-- `DNSResponseBuilder::buildNXDomain` (dns_parser.cpp lines 275-304):
returns the written length (0 for a too-small buffer) and the response
buffer after the call.  `parsed.header->getFlags()` reads the flags word of the original
query. -/
def buildNXDomain (query : List Nat) (parsed : DNSParseResult)
    (resp : List Nat) : Nat × List Nat :=
  if resp.length < parsed.total_consumed then (0, resp)
  else
    let r := copyBytes query parsed.total_consumed resp
    let flags := (((be16 query 2 ||| 32768) ||| 128) &&& 65520) ||| 3
    let r := write16 r 2 flags
    let r := write16 r 6 0
    let r := write16 r 8 0
    let r := write16 r 10 0
    (parsed.total_consumed, r)

/-- `DNSResponseBuilder::buildRefused` (dns_parser.cpp lines 426-452). -/
def buildRefused (query : List Nat) (parsed : DNSParseResult)
    (resp : List Nat) : Nat × List Nat :=
  if resp.length < parsed.total_consumed then (0, resp)
  else
    let r := copyBytes query parsed.total_consumed resp
    let flags := (((be16 query 2 ||| 32768) ||| 128) &&& 65520) ||| 5
    let r := write16 r 2 flags
    let r := write16 r 6 0
    let r := write16 r 8 0
    let r := write16 r 10 0
    (parsed.total_consumed, r)

/-- `DNSResponseBuilder::buildAResponse` (dns_parser.cpp lines 306-364).
`ip` is the already network-ordered uint32 parameter, stored with
machine (little-endian) byte order; `ttl` goes through `htonl`. -/
def buildAResponse (query : List Nat) (parsed : DNSParseResult)
    (ip ttl : Nat) (resp : List Nat) : Nat × List Nat :=
  let total_size := parsed.total_consumed + 16
  if resp.length < total_size then (0, resp)
  else
    let r := copyBytes query parsed.total_consumed resp
    let flags := (((be16 query 2 ||| 32768) ||| 1024) ||| 128) &&& 65520
    let r := write16 r 2 flags
    let r := write16 r 6 1
    let o := parsed.total_consumed
    let r := r.set o 192
    let r := r.set (o + 1) DNS_HEADER_SIZE
    let r := write16 r (o + 2) 1
    let r := write16 r (o + 4) 1
    let r := write32BE r (o + 6) ttl
    let r := write16 r (o + 10) 4
    let r := write32LE r (o + 12) ip
    (o + 16, r)

/-- `DNSResponseBuilder::buildAAAAResponse` (dns_parser.cpp lines
366-424); `ipv6` is the 16-byte address copied verbatim. -/
def buildAAAAResponse (query : List Nat) (parsed : DNSParseResult)
    (ipv6 : List Nat) (ttl : Nat) (resp : List Nat) : Nat × List Nat :=
  let total_size := parsed.total_consumed + 28
  if resp.length < total_size then (0, resp)
  else
    let r := copyBytes query parsed.total_consumed resp
    let flags := (((be16 query 2 ||| 32768) ||| 1024) ||| 128) &&& 65520
    let r := write16 r 2 flags
    let r := write16 r 6 1
    let o := parsed.total_consumed
    let r := r.set o 192
    let r := r.set (o + 1) DNS_HEADER_SIZE
    let r := write16 r (o + 2) 28
    let r := write16 r (o + 4) 1
    let r := write32BE r (o + 6) ttl
    let r := write16 r (o + 10) 16
    let r := writeList r (o + 12) (ipv6.take 16)
    (o + 16 + 12, r)

-- ==================== CGO bridge ====================

/-- XDP_DNS_OK of cgo_bridge.h. -/
def XDP_DNS_OK : Int := 0

/-- XDP_DNS_ERR_INVALID_PARAM of cgo_bridge.h. -/
def XDP_DNS_ERR_INVALID_PARAM : Int := -1

/-- XDP_DNS_ERR_PARSE_FAILED of cgo_bridge.h. -/
def XDP_DNS_ERR_PARSE_FAILED : Int := -2

/-- XDP_DNS_ERR_BUFFER_TOO_SMALL of cgo_bridge.h. -/
def XDP_DNS_ERR_BUFFER_TOO_SMALL : Int := -3

/-- XDP_DNS_ERR_NOT_INITIALIZED of cgo_bridge.h. -/
def XDP_DNS_ERR_NOT_INITIALIZED : Int := -4

/-- XDP_DNS_ERR_NOT_DNS_QUERY of cgo_bridge.h. -/
def XDP_DNS_ERR_NOT_DNS_QUERY : Int := -5

/-- `xdp_dns_parse` (cgo_bridge.cpp lines 43-94): the returned status
and the decoded domain written to `result->domain`.  The local
`DNSParseResult parsed` is uninitialised in C++ but the status never
reads a field that was not written first, so the zero struct stands in
for it.  Statistics counters and the remaining `result` fields do not
affect the status and are not part of the return. -/
def xdp_dns_parse (packet : List Nat) : Int × List Nat :=
  if packet.length < 12 then (XDP_DNS_ERR_INVALID_PARAM, [])
  else
    let pr := parse packet defaultParseResult
    if pr.1 ≠ .success then (errorCode pr.1, [])
    else if pr.2.is_query = false then (XDP_DNS_ERR_NOT_DNS_QUERY, [])
    else
      let dn := decodeName packet packet.length pr.2.name_offset 256
      if dn.1 ≠ .success then (errorCode dn.1, [])
      else (XDP_DNS_OK, dn.2)

-- ==================== Claim-side definitions ====================

/-- Transcription of the description of the lookup in claim C2 (spec §4.3):
walk the reversed labels remembering the most recently seen wildcard
rule of a node on the walked path; a missing child returns the
remembered wildcard; a fully consumed path returns the exact rule,
else the wildcard of the final node, else the remembered wildcard.  Written
from the words of the claim, to be compared with `matchImplGo`, which is
translated from the source. -/
def matchSpecWalk (t : TrieNode) (labels : List (List Nat))
    (remembered : Option Rule) : Option Rule :=
  match labels with
  | [] => (t.exact_rule.orElse fun _ => t.wildcard_rule).orElse fun _ => remembered
  | l :: rest =>
    let remembered2 := if (t.wildcard_rule).isSome then t.wildcard_rule else remembered
    match findChild t.children l with
    | none => remembered2
    | some c => matchSpecWalk c rest remembered2

/-- The node reached by consuming all labels from `t`, when every child
on the way exists (the node of claim C2 reached by consuming all reversed
labels). -/
def walkPath (t : TrieNode) (labels : List (List Nat)) : Option TrieNode :=
  match labels with
  | [] => some t
  | l :: rest =>
    match findChild t.children l with
    | none => none
    | some c => walkPath c rest

/-- Transcription of the value claimed by claim C3: the byte count of the
original, pre-jump portion of a QNAME, plus 1 when a terminating zero
ends the (pre-jump) walk or plus 2 when a compression pointer ends it;
bytes reached only through a jump are not counted.  Written from the
words of the claim, to be compared with the `wire_len` the source computes. -/
def claimedWireLen (data : List Nat) (len offset : Nat) : Option Nat :=
  if _h : offset ≥ len then none
  else
    let b := byteAt data offset
    if b = 0 then some 1
    else if 192 ≤ b then some 2
    else if b > MAX_LABEL_LENGTH then none
    else if offset + 1 + b > len then none
    else
      match claimedWireLen data len (offset + 1 + b) with
      | none => none
      | some w => some (1 + b + w)
termination_by len - offset
decreasing_by simp_wf; omega

/-- Pointer-free name scan: `some (end_offset, wire_len)` exactly when
the wire name starting at `offset` is a chain of literal labels ended
by a zero byte, with no compression pointer, every byte in bounds and
every label within MAX_LABEL_LENGTH.  This picks out the packets on
which the pre-jump accounting of claim C3 and the round trip of claim C8 are
asserted to coincide with the code. -/
def scanNoPtr (data : List Nat) (len offset : Nat) : Option (Nat × Nat) :=
  if _h : offset ≥ len then none
  else
    let b := byteAt data offset
    if b = 0 then some (offset + 1, 1)
    else if 192 ≤ b then none
    else if b > MAX_LABEL_LENGTH then none
    else if offset + 1 + b > len then none
    else
      match scanNoPtr data len (offset + 1 + b) with
      | none => none
      | some (e, w) => some (e, 1 + b + w)
termination_by len - offset
decreasing_by simp_wf; omega

-- ==================== Concrete inputs ====================

/-- A rule value used by the concrete scenarios. -/
def ruleBlock : Rule := ⟨1, .block, 0, 300, []⟩

/-- A second rule value. -/
def ruleLog : Rule := ⟨2, .log, 0, 300, []⟩

/-- The byte string "*.a.com". -/
def domStarACom : List Nat := [42, 46, 97, 46, 99, 111, 109]

/-- The byte string "b.com". -/
def domBCom : List Nat := [98, 46, 99, 111, 109]

/-- The byte string "Example.COM". -/
def domExampleMixed : List Nat := [69, 120, 97, 109, 112, 108, 101, 46, 67, 79, 77]

/-- The byte string "example.com". -/
def domExampleLower : List Nat := [101, 120, 97, 109, 112, 108, 101, 46, 99, 111, 109]

/-- The byte string "EXAMPLE.COM". -/
def domExampleUpper : List Nat := [69, 88, 65, 77, 80, 76, 69, 46, 67, 79, 77]

/-- The byte string "ExAmPlE.cOm". -/
def domExampleMixed2 : List Nat := [69, 120, 65, 109, 80, 108, 69, 46, 99, 79, 109]

/-- The byte string "." (one dot). -/
def domDot : List Nat := [46]

/-- A 17-byte packet with qd_count = 0 and a nonzero id word: `parse`
fails with InvalidHeader after already storing id, flags and is_query. -/
def c1pkt : List Nat := [9, 9, 1, 0, 0, 0, 0, 0, 0, 0, 0, 0, 0, 0, 1, 0, 1]

/-- A 3-byte packet, for the PacketTooShort path. -/
def c1short : List Nat := [9, 9, 1]

/-- A 20-byte query whose QNAME is the label "a" followed by a
compression pointer to offset 0, where a zero byte (the id high byte)
terminates the name: parse succeeds and the source computes
`wire_len = 3`. -/
def c3pkt : List Nat :=
  [0, 0, 1, 0, 0, 1, 0, 0, 0, 0, 0, 0, 1, 97, 192, 0, 0, 1, 0, 1]

/-- A 17-byte query whose QNAME starts with the self-pointing
compression pointer C0 0C at offset 12 (scenario S6). -/
def c6pkt : List Nat := [0, 0, 1, 0, 0, 1, 0, 0, 0, 0, 0, 0, 192, 12, 0, 1, 0]

/-- A valid query of length 19 for the simple question "a" (id 0x1234,
flags 0x0100, qtype A, qclass IN). -/
def simpleQuery : List Nat :=
  [18, 52, 1, 0, 0, 1, 0, 0, 0, 0, 0, 0, 1, 97, 0, 0, 1, 0, 1]

/-- The parse result of `simpleQuery`. -/
def simpleParsed : DNSParseResult := ⟨12, 3, 1, 1, 19, 19, 4660, 256, true⟩

/-- A valid query like `simpleQuery` but with ns_count = 1 and
ar_count = 2 in the header. -/
def c4query : List Nat :=
  [18, 52, 1, 0, 0, 1, 0, 0, 0, 1, 0, 2, 1, 97, 0, 0, 1, 0, 1]

/-- The parse result of `c4query`. -/
def c4parsed : DNSParseResult := ⟨12, 3, 1, 1, 19, 19, 4660, 256, true⟩

/-- A 40-byte query whose QNAME is a single compression pointer to
offset 36, where a zero byte terminates the name; `total_consumed` is
18, so the 34-byte A response no longer contains offset 36. -/
def c8query : List Nat :=
  [0, 0, 1, 0, 0, 1, 0, 0, 0, 0, 0, 0, 192, 36, 0, 1, 0, 1,
   0, 0, 0, 0, 0, 0, 0, 0, 0, 0, 0, 0, 0, 0, 0, 0, 0, 0, 0, 0, 0, 0]

/-- The parse result of `c8query`. -/
def c8parsed : DNSParseResult := ⟨12, 1, 1, 1, 18, 18, 0, 256, true⟩

/-- A 17-byte packet whose first QNAME byte 0x80 (top bits 10) makes
`parse` fail with InvalidLabel. -/
def c10malformed : List Nat := [0, 0, 1, 0, 0, 1, 0, 0, 0, 0, 0, 0, 128, 0, 0, 0, 0]

/-- A well-formed 17-byte response datagram (QR bit set, root QNAME,
qtype A, qclass IN). -/
def c10response : List Nat := [0, 0, 129, 0, 0, 1, 0, 0, 0, 0, 0, 0, 0, 0, 1, 0, 1]

/-- A 13-byte packet: at least a header, but below MIN_DNS_QUERY_SIZE. -/
def c10short : List Nat := [0, 0, 0, 0, 0, 0, 0, 0, 0, 0, 0, 0, 0]


theorem lower_upper (c : Nat) : toLowerB (toUpperB c) = toLowerB c := by
  simp only [toLowerB, toUpperB]
  split_ifs <;> omega

theorem map_lower_upper (d : List Nat) :
    d.map (toLowerB ∘ toUpperB) = d.map toLowerB := by
  induction d with
  | nil => rfl
  | cons c rest ih => simp [lower_upper, ih, Function.comp]

/-- Claim C9: for every trie state and every domain byte string d,
DomainTrie match of d returns the same rule as match of the
ASCII-uppercased form of d; in particular, after inserting Example.COM
with a Block rule, match of example.com, EXAMPLE.COM and ExAmPlE.cOm
all return that rule. -/
theorem C9_thm :
    (∀ (tr : DomainTrie) (d : List Nat),
      tr.matchDomain d = tr.matchDomain (d.map toUpperB)) ∧
    ((emptyTrie.insert domExampleMixed ruleBlock).matchDomain domExampleLower = some ruleBlock) ∧
    ((emptyTrie.insert domExampleMixed ruleBlock).matchDomain domExampleUpper = some ruleBlock) ∧
    ((emptyTrie.insert domExampleMixed ruleBlock).matchDomain domExampleMixed2 = some ruleBlock) := by
  refine ⟨?_, by decide, by decide, by decide⟩
  intro tr d
  simp [DomainTrie.matchDomain, List.length_map, map_lower_upper]

theorem matchImplGo_eq_spec (labels : List (List Nat)) :
    ∀ (t : TrieNode) (mw : Option Rule),
      matchImplGo t labels mw = matchSpecWalk t labels mw := by
  induction labels with
  | nil =>
    intro t mw
    obtain ⟨cs, e, w⟩ := t
    cases e <;> cases w <;>
      simp [matchImplGo, matchSpecWalk, TrieNode.exact_rule, TrieNode.wildcard_rule, Option.orElse]
  | cons l rest ih =>
    intro t mw
    obtain ⟨cs, e, w⟩ := t
    cases w <;> cases hf : findChild cs l <;>
      simp [matchImplGo, matchSpecWalk, TrieNode.children, TrieNode.wildcard_rule, hf, ih]

theorem matchImplGo_exact (labels : List (List Nat)) :
    ∀ (t : TrieNode) (mw : Option Rule) (n : TrieNode) (r : Rule),
      walkPath t labels = some n → n.exact_rule = some r →
      matchImplGo t labels mw = some r := by
  induction labels with
  | nil =>
    intro t mw n r hw he
    obtain rfl : t = n := by simpa [walkPath] using hw
    simp [matchImplGo, he]
  | cons l rest ih =>
    intro t mw n r hw he
    cases hf : findChild t.children l with
    | none => simp [walkPath, hf] at hw
    | some c =>
      simp only [walkPath, hf] at hw
      simp only [matchImplGo, hf]
      exact ih c _ n r hw he

/-- Claim C2: the source lookup matchImplGo computes exactly the walk
described by the claim (transcribed as matchSpecWalk): exact rule of
the node reached by consuming all labels first, else that final nodes
wildcard, else the most recently remembered ancestor wildcard, which is
also returned when a child is missing mid-walk.  An exact rule at the
reached node always wins, and after inserting only *.a.com, match of
b.com returns none while match of a.com returns the rule. -/
theorem C2_thm :
    (∀ (t : TrieNode) (labels : List (List Nat)) (mw : Option Rule),
       matchImplGo t labels mw = matchSpecWalk t labels mw) ∧
    (∀ (t : TrieNode) (labels : List (List Nat)) (n : TrieNode) (r : Rule),
       walkPath t labels = some n → n.exact_rule = some r →
       matchImpl t labels = some r) ∧
    ((emptyTrie.insert domStarACom ruleLog).matchDomain domBCom = none) ∧
    ((emptyTrie.insert domStarACom ruleLog).matchDomain [97, 46, 99, 111, 109] = some ruleLog) := by
  refine ⟨fun t labels => matchImplGo_eq_spec labels t, ?_, by decide, by decide⟩
  intro t labels n r hw he
  exact matchImplGo_exact labels t none n r hw he

/-- Witness for C2: the exact-precedence part applied at a concrete
one-node trie. -/
theorem C2_wit : matchImpl (TrieNode.node [] (some ruleBlock) none) [] = some ruleBlock :=
  C2_thm.2.1 _ [] _ ruleBlock rfl rfl

/-- Claim C5 as amended: inserting a domain whose label list is empty
after splitting (such as the single dot) is NOT a no-op: it increments
size and installs the rule as the exact rule of the root, which match
of the dot domain then returns; only a zero-length input is silently
ignored. -/
theorem C5_thm : ∀ (tr : DomainTrie) (r : Rule),
    (tr.insert domDot r).size = tr.size + 1 ∧
    (tr.insert domDot r).root.exact_rule = some r ∧
    (tr.insert domDot r).matchDomain domDot = some r ∧
    tr.insert [] r = tr := by
  intro tr r
  obtain ⟨⟨cs, e, w⟩, cnt⟩ := tr
  refine ⟨?_, ?_, ?_, ?_⟩ <;>
    simp [DomainTrie.insert, domDot, splitAndReverse, splitGo, toLowerB, insertImpl,
      DomainTrie.size, DomainTrie.matchDomain, matchImpl, matchImplGo, TrieNode.exact_rule]

/-- Counterexample to claim C5 as stated: inserting the domain
consisting of one dot into an empty trie changes size() and makes the
rule matchable. -/
theorem C5_cex :
    (emptyTrie.insert domDot ruleBlock).size ≠ emptyTrie.size ∧
    (emptyTrie.insert domDot ruleBlock).matchDomain domDot = some ruleBlock := by
  exact ⟨by decide, by decide⟩

/-- Claim C10: xdp_dns_parse returns the same status value -5 for a
malformed packet that fails with InvalidLabel as for a well-formed
response datagram (XDP_DNS_ERR_NOT_DNS_QUERY), and a 13-byte packet
returns PacketTooShort = -1 = XDP_DNS_ERR_INVALID_PARAM, so callers
cannot separate these conditions by status. -/
theorem C10_thm :
    xdp_dns_parse c10malformed = (XDP_DNS_ERR_NOT_DNS_QUERY, []) ∧
    xdp_dns_parse c10response = (XDP_DNS_ERR_NOT_DNS_QUERY, []) ∧
    (parse c10malformed defaultParseResult).1 = .invalidLabel ∧
    errorCode .invalidLabel = XDP_DNS_ERR_NOT_DNS_QUERY ∧
    xdp_dns_parse c10short = (XDP_DNS_ERR_INVALID_PARAM, []) ∧
    (parse c10short defaultParseResult).1 = .packetTooShort ∧
    errorCode .packetTooShort = XDP_DNS_ERR_INVALID_PARAM := by
  refine ⟨?_, ?_, ?_, by decide, ?_, ?_, by decide⟩ <;>
    simp [xdp_dns_parse, parse, parseName, parseNameGo, decodeName, decodeNameGo,
      byteAt, be16, c10malformed, c10response, c10short, MIN_DNS_QUERY_SIZE,
      DNS_HEADER_SIZE, MAX_LABELS, MAX_LABEL_LENGTH, errorCode,
      XDP_DNS_ERR_INVALID_PARAM, XDP_DNS_ERR_NOT_DNS_QUERY, defaultParseResult]


theorem parseNameGo_at_cap (data : List Nat) (len offset o' : Nat) (jumped : Bool) (acc : Nat) :
    parseNameGo data len offset o' jumped MAX_LABELS acc = (.pointerLoop, 0, 0) := by
  rw [parseNameGo]
  simp

theorem parseNameGo_ptr_oob (data : List Nat) (len offset o' : Nat) (jumped : Bool)
    (jc acc : Nat) (h1 : jc < MAX_LABELS) (h2 : offset < len)
    (h3 : 192 ≤ byteAt data offset) (h4 : offset + 1 < len)
    (h5 : len ≤ (byteAt data offset % 64) * 256 + byteAt data (offset + 1)) :
    parseNameGo data len offset o' jumped jc acc = (.pointerLoop, 0, 0) := by
  rw [parseNameGo]
  rw [dif_pos h1, dif_neg (by omega)]
  simp only
  rw [if_neg (by omega), if_pos h3, if_neg (by omega), if_pos (by omega)]

theorem c6pkt_loop : ∀ (k j o' acc : Nat), j + k = MAX_LABELS →
    parseNameGo c6pkt 17 12 o' true j acc = (.pointerLoop, 0, 0) := by
  intro k
  induction k with
  | zero =>
    intro j o' acc hj
    have : j = MAX_LABELS := by omega
    subst this
    exact parseNameGo_at_cap ..
  | succ k ih =>
    intro j o' acc hj
    rw [parseNameGo]
    rw [dif_pos (by simp [MAX_LABELS] at hj ⊢; omega), dif_neg (by omega)]
    simp only
    rw [if_neg (by decide), if_pos (by decide), if_neg (by decide), if_neg (by decide)]
    have h12 : (byteAt c6pkt 12 % 64) * 256 + byteAt c6pkt 13 = 12 := by decide
    rw [h12]
    exact ih (j + 1) o' acc (by omega)

/-- Claim C6: the name scan returns PointerLoop when the jump budget of
MAX_LABELS = 128 is exhausted, returns PointerLoop when a pointer
targets an offset at or beyond len, and on the concrete packet whose
QNAME is the self-pointing pointer C0 0C at offset 12, parse returns
PointerLoop.  The Lean embedding is total, so termination on every
input holds by construction. -/
theorem C6_thm :
    (∀ (data : List Nat) (len offset o' : Nat) (jumped : Bool) (acc : Nat),
       parseNameGo data len offset o' jumped MAX_LABELS acc = (.pointerLoop, 0, 0)) ∧
    (∀ (data : List Nat) (len offset o' : Nat) (jumped : Bool) (jc acc : Nat),
       jc < MAX_LABELS → offset < len → 192 ≤ byteAt data offset → offset + 1 < len →
       len ≤ (byteAt data offset % 64) * 256 + byteAt data (offset + 1) →
       parseNameGo data len offset o' jumped jc acc = (.pointerLoop, 0, 0)) ∧
    ((parse c6pkt defaultParseResult).1 = .pointerLoop) := by
  refine ⟨parseNameGo_at_cap, parseNameGo_ptr_oob, ?_⟩
  have hstep : parseName c6pkt 17 12 = (.pointerLoop, 0, 0) := by
    unfold parseName
    rw [parseNameGo]
    rw [dif_pos (by decide), dif_neg (by decide)]
    simp only
    rw [if_neg (by decide), if_pos (by decide), if_neg (by decide), if_neg (by decide)]
    have h12 : (byteAt c6pkt 12 % 64) * 256 + byteAt c6pkt 13 = 12 := by decide
    rw [h12]
    exact c6pkt_loop 127 1 12 0 (by decide)
  rw [parse]
  rw [if_neg (by decide)]
  simp only [DNS_HEADER_SIZE]
  simp only [show c6pkt.length = 17 from rfl]
  rw [if_neg (by decide), hstep]
  simp

/-- Witness for C6: the pointer-target-out-of-bounds part applied to a
concrete two-byte packet. -/
theorem C6_wit :
    parseNameGo [192, 200] 2 0 0 false 0 0 = (.pointerLoop, 0, 0) :=
  C6_thm.2.1 [192, 200] 2 0 0 false 0 0 (by decide) (by decide) (by decide) (by decide) (by decide)

/-- Claim C7: for a parseable query, each builder returns 0 and leaves
the output buffer untouched when the buffer capacity is below
total_consumed plus the answer size (0, 0, 16, 28 bytes respectively),
and otherwise returns exactly total_consumed plus the answer size. -/
theorem C7_thm : ∀ (query : List Nat) (r0 parsed : DNSParseResult) (ip ttl : Nat)
    (ipv6 resp : List Nat),
    parse query r0 = (.success, parsed) →
    ((resp.length < parsed.total_consumed →
        buildNXDomain query parsed resp = (0, resp)) ∧
     (parsed.total_consumed ≤ resp.length →
        (buildNXDomain query parsed resp).1 = parsed.total_consumed) ∧
     (resp.length < parsed.total_consumed →
        buildRefused query parsed resp = (0, resp)) ∧
     (parsed.total_consumed ≤ resp.length →
        (buildRefused query parsed resp).1 = parsed.total_consumed) ∧
     (resp.length < parsed.total_consumed + 16 →
        buildAResponse query parsed ip ttl resp = (0, resp)) ∧
     (parsed.total_consumed + 16 ≤ resp.length →
        (buildAResponse query parsed ip ttl resp).1 = parsed.total_consumed + 16) ∧
     (resp.length < parsed.total_consumed + 28 →
        buildAAAAResponse query parsed ipv6 ttl resp = (0, resp)) ∧
     (parsed.total_consumed + 28 ≤ resp.length →
        (buildAAAAResponse query parsed ipv6 ttl resp).1 = parsed.total_consumed + 28)) := by
  intro query r0 parsed ip ttl ipv6 resp _
  refine ⟨?_, ?_, ?_, ?_, ?_, ?_, ?_, ?_⟩ <;> intro h <;>
    simp [buildNXDomain, buildRefused, buildAResponse, buildAAAAResponse, h, Nat.not_lt.mpr h]



/-- Witness for C7: the too-small and exact-length parts applied to a
concrete query with a 10-byte and a 64-byte buffer. -/
theorem C7_wit :
    buildNXDomain simpleQuery simpleParsed (List.replicate 10 0) =
      (0, List.replicate 10 0) ∧
    (buildAResponse simpleQuery simpleParsed 7 300 (List.replicate 64 0)).1 =
      simpleParsed.total_consumed + 16 :=
  ⟨(C7_thm simpleQuery defaultParseResult simpleParsed 7 300 [] (List.replicate 10 0)
      (by simp [parse, parseName, parseNameGo, byteAt, be16, simpleQuery, simpleParsed,
        defaultParseResult, MIN_DNS_QUERY_SIZE, DNS_HEADER_SIZE, MAX_LABELS,
        MAX_LABEL_LENGTH])).1 (by decide),
   (C7_thm simpleQuery defaultParseResult simpleParsed 7 300 [] (List.replicate 64 0)
      (by simp [parse, parseName, parseNameGo, byteAt, be16, simpleQuery, simpleParsed,
        defaultParseResult, MIN_DNS_QUERY_SIZE, DNS_HEADER_SIZE, MAX_LABELS,
        MAX_LABEL_LENGTH])).2.2.2.2.2.1 (by decide)⟩

/-- Claim C1 as amended: on every failing path parse leaves qtype,
qclass, total_consumed and question_end of the output struct at their
pre-call values, and a PacketTooShort failure writes no modelled field
at all; but id, flags and is_query are written before the qd_count
check, so later failures can leave them changed. -/
theorem C1_thm : ∀ (data : List Nat) (r0 : DNSParseResult),
    (parse data r0).1 ≠ .success →
    ((parse data r0).2.qtype = r0.qtype ∧
     (parse data r0).2.qclass = r0.qclass ∧
     (parse data r0).2.total_consumed = r0.total_consumed ∧
     (parse data r0).2.question_end = r0.question_end) ∧
    (data.length < MIN_DNS_QUERY_SIZE → (parse data r0).2 = r0) := by
  intro data r0 h
  by_cases h1 : data.length < MIN_DNS_QUERY_SIZE
  · simp [parse, h1]
  · by_cases h2 : be16 data 4 = 0
    · refine ⟨?_, fun hc => absurd hc h1⟩
      simp [parse, h1, h2]
    · by_cases h3 : (parseName data data.length DNS_HEADER_SIZE).1 = .success
      · by_cases h4 : (parseName data data.length DNS_HEADER_SIZE).2.1 + 4 > data.length
        · refine ⟨?_, fun hc => absurd hc h1⟩
          simp [parse, h1, h2, h3, h4]
        · exfalso
          apply h
          simp [parse, h1, h2, h3, h4]
      · refine ⟨?_, fun hc => absurd hc h1⟩
        simp [parse, h1, h2, h3]

/-- Counterexample to claim C1 as stated: a 17-byte packet with
qd_count = 0 makes parse fail with InvalidHeader after the id field of
the output struct has already been overwritten. -/
theorem C1_cex :
    (parse c1pkt defaultParseResult).1 = .invalidHeader ∧
    (parse c1pkt defaultParseResult).2.id ≠ defaultParseResult.id := by
  constructor <;>
    simp [parse, c1pkt, defaultParseResult, be16, byteAt, MIN_DNS_QUERY_SIZE]

/-- Witness for C1: the amended theorem applied at two concrete failing
packets. -/
theorem C1_wit :
    (parse c1short defaultParseResult).2 = defaultParseResult ∧
    (parse c1pkt defaultParseResult).2.qtype = defaultParseResult.qtype :=
  ⟨(C1_thm c1short defaultParseResult
      (by simp [parse, c1short, MIN_DNS_QUERY_SIZE])).2 (by decide),
   (C1_thm c1pkt defaultParseResult
      (by simp [parse, c1pkt, defaultParseResult, be16, byteAt, MIN_DNS_QUERY_SIZE])).1.1⟩


theorem pn_step (data : List Nat) (len offset o' : Nat) (jumped : Bool) (jc acc : Nat)
    (h1 : jc < MAX_LABELS) (h2 : offset < len) :
    parseNameGo data len offset o' jumped jc acc =
      if byteAt data offset = 0 then
        (.success, if jumped then o' + 2 else offset + 1, acc + 1)
      else if 192 ≤ byteAt data offset then
        if offset + 1 ≥ len then (.truncatedMessage, 0, 0)
        else if (byteAt data offset % 64) * 256 + byteAt data (offset + 1) ≥ len then
          (.pointerLoop, 0, 0)
        else
          parseNameGo data len ((byteAt data offset % 64) * 256 + byteAt data (offset + 1))
            (if jumped then o' else offset) true (jc + 1) acc
      else if byteAt data offset > MAX_LABEL_LENGTH then (.invalidLabel, 0, 0)
      else if offset + 1 + byteAt data offset > len then (.truncatedMessage, 0, 0)
      else
        parseNameGo data len (offset + 1 + byteAt data offset) o' jumped jc
          (acc + 1 + byteAt data offset) := by
  rw [parseNameGo, dif_pos h1, dif_neg (by omega)]

theorem parseNameGo_end_ge (data : List Nat) (len e w : Nat) :
    ∀ (offset o' : Nat) (jumped : Bool) (jc acc : Nat),
      parseNameGo data len offset o' jumped jc acc = (.success, e, w) →
      (if jumped = true then o' + 2 else offset + 1) ≤ e := by
  intro offset o' jumped jc acc
  induction offset, o', jumped, jc, acc using parseNameGo.induct data len with
  | case1 offset o' jumped jc acc hjc hoff =>
    intro h
    rw [parseNameGo, dif_pos hjc, dif_pos hoff] at h
    simp at h
  | case2 offset o' jumped jc acc hjc hoff b hb =>
    intro h
    have hb2 : byteAt data offset = 0 := hb
    rw [pn_step data len offset o' jumped jc acc hjc (by omega), if_pos hb2] at h
    obtain ⟨-, he, -⟩ := Prod.mk.injEq .. ▸ h
    cases jumped <;> simp_all
  | case3 offset o' jumped jc acc hjc hoff b hb hb192 hoob =>
    intro h
    have hb2 : ¬ byteAt data offset = 0 := hb
    have hb3 : 192 ≤ byteAt data offset := hb192
    rw [pn_step data len offset o' jumped jc acc hjc (by omega),
      if_neg hb2, if_pos hb3, if_pos hoob] at h
    simp at h
  | case4 offset o' jumped jc acc hjc hoff b hb hb192 hoob ptr hptr =>
    intro h
    have hb2 : ¬ byteAt data offset = 0 := hb
    have hb3 : 192 ≤ byteAt data offset := hb192
    have hp2 : (byteAt data offset % 64) * 256 + byteAt data (offset + 1) ≥ len := hptr
    rw [pn_step data len offset o' jumped jc acc hjc (by omega),
      if_neg hb2, if_pos hb3, if_neg hoob, if_pos hp2] at h
    simp at h
  | case5 offset o' jumped jc acc hjc hoff b hb hb192 hoob ptr hptr ih =>
    intro h
    have hb2 : ¬ byteAt data offset = 0 := hb
    have hb3 : 192 ≤ byteAt data offset := hb192
    have hp2 : ¬ (byteAt data offset % 64) * 256 + byteAt data (offset + 1) ≥ len := hptr
    rw [pn_step data len offset o' jumped jc acc hjc (by omega),
      if_neg hb2, if_pos hb3, if_neg hoob, if_neg hp2] at h
    have hrec := ih h
    cases jumped
    · simp at hrec ⊢
      omega
    · simp at hrec ⊢
      omega
  | case6 offset o' jumped jc acc hjc hoff b hb hb192 hbig =>
    intro h
    have hb2 : ¬ byteAt data offset = 0 := hb
    have hb3 : ¬ 192 ≤ byteAt data offset := hb192
    have hb4 : byteAt data offset > MAX_LABEL_LENGTH := hbig
    rw [pn_step data len offset o' jumped jc acc hjc (by omega),
      if_neg hb2, if_neg hb3, if_pos hb4] at h
    simp at h
  | case7 offset o' jumped jc acc hjc hoff b hb hb192 hbig hoob =>
    intro h
    have hb2 : ¬ byteAt data offset = 0 := hb
    have hb3 : ¬ 192 ≤ byteAt data offset := hb192
    have hb4 : ¬ byteAt data offset > MAX_LABEL_LENGTH := hbig
    have hb5 : offset + 1 + byteAt data offset > len := hoob
    rw [pn_step data len offset o' jumped jc acc hjc (by omega),
      if_neg hb2, if_neg hb3, if_neg hb4, if_pos hb5] at h
    simp at h
  | case8 offset o' jumped jc acc hjc hoff b hb hb192 hbig hoob ih =>
    intro h
    have hb2 : ¬ byteAt data offset = 0 := hb
    have hb3 : ¬ 192 ≤ byteAt data offset := hb192
    have hb4 : ¬ byteAt data offset > MAX_LABEL_LENGTH := hbig
    have hb5 : ¬ offset + 1 + byteAt data offset > len := hoob
    rw [pn_step data len offset o' jumped jc acc hjc (by omega),
      if_neg hb2, if_neg hb3, if_neg hb4, if_neg hb5] at h
    have hrec := ih h
    cases jumped
    · simp at hrec ⊢
      omega
    · simp at hrec ⊢
      omega
  | case9 offset o' jumped jc acc hjc =>
    intro h
    rw [parseNameGo, dif_neg hjc] at h
    simp at h


theorem parse_success_inv (data : List Nat) (r0 p : DNSParseResult)
    (h : parse data r0 = (.success, p)) :
    MIN_DNS_QUERY_SIZE ≤ data.length ∧ be16 data 4 ≠ 0 ∧
    (parseName data data.length DNS_HEADER_SIZE).1 = .success ∧
    p = { name_offset := DNS_HEADER_SIZE
          name_wire_len := (parseName data data.length DNS_HEADER_SIZE).2.2
          qtype := be16 data (parseName data data.length DNS_HEADER_SIZE).2.1
          qclass := be16 data ((parseName data data.length DNS_HEADER_SIZE).2.1 + 2)
          total_consumed := (parseName data data.length DNS_HEADER_SIZE).2.1 + 4
          question_end := (parseName data data.length DNS_HEADER_SIZE).2.1 + 4
          id := be16 data 0
          flags := be16 data 2
          is_query := decide (be16 data 2 < 32768) } ∧
    (parseName data data.length DNS_HEADER_SIZE).2.1 + 4 ≤ data.length := by
  by_cases h1 : data.length < MIN_DNS_QUERY_SIZE
  · simp [parse, h1] at h
  · by_cases h2 : be16 data 4 = 0
    · simp [parse, h1, h2] at h
    · by_cases h3 : (parseName data data.length DNS_HEADER_SIZE).1 = .success
      · by_cases h4 : (parseName data data.length DNS_HEADER_SIZE).2.1 + 4 > data.length
        · simp [parse, h1, h2, h3, h4] at h
        · simp only [parse, h1, if_false, h2, if_false, h3, ne_eq, not_true_eq_false,
            if_false, h4] at h
          simp only [Prod.mk.injEq, true_and] at h
          exact ⟨by omega, h2, h3, h.symm, by omega⟩
      · simp [parse, h1, h2, h3] at h

theorem sn_step (data : List Nat) (len offset : Nat) (h : offset < len) :
    scanNoPtr data len offset =
      if byteAt data offset = 0 then some (offset + 1, 1)
      else if 192 ≤ byteAt data offset then none
      else if byteAt data offset > MAX_LABEL_LENGTH then none
      else if offset + 1 + byteAt data offset > len then none
      else
        match scanNoPtr data len (offset + 1 + byteAt data offset) with
        | none => none
        | some (e, w) => some (e, 1 + byteAt data offset + w) := by
  rw [scanNoPtr, dif_neg (by omega)]

theorem scanNoPtr_bounds (data : List Nat) (len : Nat) :
    ∀ (offset : Nat) (e w : Nat),
      scanNoPtr data len offset = some (e, w) → offset < e ∧ e ≤ len := by
  intro offset
  induction offset using scanNoPtr.induct data len with
  | case1 x hx =>
    intro e w h
    rw [scanNoPtr, dif_pos hx] at h
    simp at h
  | case2 x hx b hb =>
    intro e w h
    have hb2 : byteAt data x = 0 := hb
    rw [sn_step data len x (by omega), if_pos hb2] at h
    simp at h
    omega
  | case3 x hx b hb hb192 =>
    intro e w h
    have hb2 : ¬ byteAt data x = 0 := hb
    have hb3 : 192 ≤ byteAt data x := hb192
    rw [sn_step data len x (by omega), if_neg hb2, if_pos hb3] at h
    simp at h
  | case4 x hx b hb hb192 hbig =>
    intro e w h
    have hb2 : ¬ byteAt data x = 0 := hb
    have hb3 : ¬ 192 ≤ byteAt data x := hb192
    have hb4 : byteAt data x > MAX_LABEL_LENGTH := hbig
    rw [sn_step data len x (by omega), if_neg hb2, if_neg hb3, if_pos hb4] at h
    simp at h
  | case5 x hx b hb hb192 hbig hoob =>
    intro e w h
    have hb2 : ¬ byteAt data x = 0 := hb
    have hb3 : ¬ 192 ≤ byteAt data x := hb192
    have hb4 : ¬ byteAt data x > MAX_LABEL_LENGTH := hbig
    have hb5 : x + 1 + byteAt data x > len := hoob
    rw [sn_step data len x (by omega), if_neg hb2, if_neg hb3, if_neg hb4, if_pos hb5] at h
    simp at h
  | case6 x hx b hb hb192 hbig hoob hsub ih =>
    intro e w h
    have hb2 : ¬ byteAt data x = 0 := hb
    have hb3 : ¬ 192 ≤ byteAt data x := hb192
    have hb4 : ¬ byteAt data x > MAX_LABEL_LENGTH := hbig
    have hb5 : ¬ x + 1 + byteAt data x > len := hoob
    have hsub2 : scanNoPtr data len (x + 1 + byteAt data x) = none := hsub
    rw [sn_step data len x (by omega), if_neg hb2, if_neg hb3, if_neg hb4, if_neg hb5,
      hsub2] at h
    simp at h
  | case7 x hx b hb hb192 hbig hoob e0 w0 hsub ih =>
    intro e w h
    have hb2 : ¬ byteAt data x = 0 := hb
    have hb3 : ¬ 192 ≤ byteAt data x := hb192
    have hb4 : ¬ byteAt data x > MAX_LABEL_LENGTH := hbig
    have hb5 : ¬ x + 1 + byteAt data x > len := hoob
    have hsub2 : scanNoPtr data len (x + 1 + byteAt data x) = some (e0, w0) := hsub
    rw [sn_step data len x (by omega), if_neg hb2, if_neg hb3, if_neg hb4, if_neg hb5,
      hsub2] at h
    simp at h
    obtain ⟨he, hw⟩ := h
    have := ih e0 w0 hsub2
    omega


theorem cl_step (data : List Nat) (len offset : Nat) (h : offset < len) :
    claimedWireLen data len offset =
      if byteAt data offset = 0 then some 1
      else if 192 ≤ byteAt data offset then some 2
      else if byteAt data offset > MAX_LABEL_LENGTH then none
      else if offset + 1 + byteAt data offset > len then none
      else
        match claimedWireLen data len (offset + 1 + byteAt data offset) with
        | none => none
        | some w => some (1 + byteAt data offset + w) := by
  rw [claimedWireLen, dif_neg (by omega)]

theorem scanNoPtr_parseNameGo (data : List Nat) (len : Nat) :
    ∀ (offset : Nat) (e w : Nat),
      scanNoPtr data len offset = some (e, w) →
      ∀ (o' jc acc : Nat), jc < MAX_LABELS →
        parseNameGo data len offset o' false jc acc = (.success, e, acc + w) := by
  intro offset
  induction offset using scanNoPtr.induct data len with
  | case1 x hx =>
    intro e w h
    rw [scanNoPtr, dif_pos hx] at h
    simp at h
  | case2 x hx b hb =>
    intro e w h o' jc acc hjc
    have hb2 : byteAt data x = 0 := hb
    rw [sn_step data len x (by omega), if_pos hb2] at h
    simp at h
    rw [pn_step data len x o' false jc acc hjc (by omega), if_pos hb2]
    simp [h.1.symm, h.2.symm]
  | case3 x hx b hb hb192 =>
    intro e w h
    have hb2 : ¬ byteAt data x = 0 := hb
    have hb3 : 192 ≤ byteAt data x := hb192
    rw [sn_step data len x (by omega), if_neg hb2, if_pos hb3] at h
    simp at h
  | case4 x hx b hb hb192 hbig =>
    intro e w h
    have hb2 : ¬ byteAt data x = 0 := hb
    have hb3 : ¬ 192 ≤ byteAt data x := hb192
    have hb4 : byteAt data x > MAX_LABEL_LENGTH := hbig
    rw [sn_step data len x (by omega), if_neg hb2, if_neg hb3, if_pos hb4] at h
    simp at h
  | case5 x hx b hb hb192 hbig hoob =>
    intro e w h
    have hb2 : ¬ byteAt data x = 0 := hb
    have hb3 : ¬ 192 ≤ byteAt data x := hb192
    have hb4 : ¬ byteAt data x > MAX_LABEL_LENGTH := hbig
    have hb5 : x + 1 + byteAt data x > len := hoob
    rw [sn_step data len x (by omega), if_neg hb2, if_neg hb3, if_neg hb4, if_pos hb5] at h
    simp at h
  | case6 x hx b hb hb192 hbig hoob hsub ih =>
    intro e w h
    have hb2 : ¬ byteAt data x = 0 := hb
    have hb3 : ¬ 192 ≤ byteAt data x := hb192
    have hb4 : ¬ byteAt data x > MAX_LABEL_LENGTH := hbig
    have hb5 : ¬ x + 1 + byteAt data x > len := hoob
    have hsub2 : scanNoPtr data len (x + 1 + byteAt data x) = none := hsub
    rw [sn_step data len x (by omega), if_neg hb2, if_neg hb3, if_neg hb4, if_neg hb5,
      hsub2] at h
    simp at h
  | case7 x hx b hb hb192 hbig hoob e0 w0 hsub ih =>
    intro e w h o' jc acc hjc
    have hb2 : ¬ byteAt data x = 0 := hb
    have hb3 : ¬ 192 ≤ byteAt data x := hb192
    have hb4 : ¬ byteAt data x > MAX_LABEL_LENGTH := hbig
    have hb5 : ¬ x + 1 + byteAt data x > len := hoob
    have hsub2 : scanNoPtr data len (x + 1 + byteAt data x) = some (e0, w0) := hsub
    rw [sn_step data len x (by omega), if_neg hb2, if_neg hb3, if_neg hb4, if_neg hb5,
      hsub2] at h
    simp at h
    rw [pn_step data len x o' false jc acc hjc (by omega), if_neg hb2, if_neg hb3,
      if_neg (by omega), if_neg (by omega)]
    have hrec := ih e0 w0 hsub2 o' jc (acc + 1 + byteAt data x) hjc
    rw [hrec]
    simp
    omega

theorem scanNoPtr_claimed (data : List Nat) (len : Nat) :
    ∀ (offset : Nat) (e w : Nat),
      scanNoPtr data len offset = some (e, w) →
      claimedWireLen data len offset = some w := by
  intro offset
  induction offset using scanNoPtr.induct data len with
  | case1 x hx =>
    intro e w h
    rw [scanNoPtr, dif_pos hx] at h
    simp at h
  | case2 x hx b hb =>
    intro e w h
    have hb2 : byteAt data x = 0 := hb
    rw [sn_step data len x (by omega), if_pos hb2] at h
    simp at h
    rw [cl_step data len x (by omega), if_pos hb2, h.2]
  | case3 x hx b hb hb192 =>
    intro e w h
    have hb2 : ¬ byteAt data x = 0 := hb
    have hb3 : 192 ≤ byteAt data x := hb192
    rw [sn_step data len x (by omega), if_neg hb2, if_pos hb3] at h
    simp at h
  | case4 x hx b hb hb192 hbig =>
    intro e w h
    have hb2 : ¬ byteAt data x = 0 := hb
    have hb3 : ¬ 192 ≤ byteAt data x := hb192
    have hb4 : byteAt data x > MAX_LABEL_LENGTH := hbig
    rw [sn_step data len x (by omega), if_neg hb2, if_neg hb3, if_pos hb4] at h
    simp at h
  | case5 x hx b hb hb192 hbig hoob =>
    intro e w h
    have hb2 : ¬ byteAt data x = 0 := hb
    have hb3 : ¬ 192 ≤ byteAt data x := hb192
    have hb4 : ¬ byteAt data x > MAX_LABEL_LENGTH := hbig
    have hb5 : x + 1 + byteAt data x > len := hoob
    rw [sn_step data len x (by omega), if_neg hb2, if_neg hb3, if_neg hb4, if_pos hb5] at h
    simp at h
  | case6 x hx b hb hb192 hbig hoob hsub ih =>
    intro e w h
    have hb2 : ¬ byteAt data x = 0 := hb
    have hb3 : ¬ 192 ≤ byteAt data x := hb192
    have hb4 : ¬ byteAt data x > MAX_LABEL_LENGTH := hbig
    have hb5 : ¬ x + 1 + byteAt data x > len := hoob
    have hsub2 : scanNoPtr data len (x + 1 + byteAt data x) = none := hsub
    rw [sn_step data len x (by omega), if_neg hb2, if_neg hb3, if_neg hb4, if_neg hb5,
      hsub2] at h
    simp at h
  | case7 x hx b hb hb192 hbig hoob e0 w0 hsub ih =>
    intro e w h
    have hb2 : ¬ byteAt data x = 0 := hb
    have hb3 : ¬ 192 ≤ byteAt data x := hb192
    have hb4 : ¬ byteAt data x > MAX_LABEL_LENGTH := hbig
    have hb5 : ¬ x + 1 + byteAt data x > len := hoob
    have hsub2 : scanNoPtr data len (x + 1 + byteAt data x) = some (e0, w0) := hsub
    rw [sn_step data len x (by omega), if_neg hb2, if_neg hb3, if_neg hb4, if_neg hb5,
      hsub2] at h
    simp at h
    rw [cl_step data len x (by omega), if_neg hb2, if_neg hb3, if_neg hb4, if_neg hb5,
      ih e0 w0 hsub2]
    simp
    omega

theorem scanNoPtr_agree (data data2 : List Nat) (len len2 : Nat) :
    ∀ (offset : Nat) (e w : Nat),
      scanNoPtr data len offset = some (e, w) →
      (∀ i, offset ≤ i → i < e → byteAt data2 i = byteAt data i) →
      e ≤ len2 →
      scanNoPtr data2 len2 offset = some (e, w) := by
  intro offset
  induction offset using scanNoPtr.induct data len with
  | case1 x hx =>
    intro e w h hag hlen
    rw [scanNoPtr, dif_pos hx] at h
    simp at h
  | case2 x hx b hb =>
    intro e w h hag hlen
    have hb2 : byteAt data x = 0 := hb
    rw [sn_step data len x (by omega), if_pos hb2] at h
    simp at h
    obtain ⟨he, hw⟩ := h
    have hx2 : byteAt data2 x = 0 := by
      rw [hag x (by omega) (by omega)]
      exact hb2
    rw [sn_step data2 len2 x (by omega), if_pos hx2, he, hw]
  | case3 x hx b hb hb192 =>
    intro e w h hag hlen
    have hb2 : ¬ byteAt data x = 0 := hb
    have hb3 : 192 ≤ byteAt data x := hb192
    rw [sn_step data len x (by omega), if_neg hb2, if_pos hb3] at h
    simp at h
  | case4 x hx b hb hb192 hbig =>
    intro e w h hag hlen
    have hb2 : ¬ byteAt data x = 0 := hb
    have hb3 : ¬ 192 ≤ byteAt data x := hb192
    have hb4 : byteAt data x > MAX_LABEL_LENGTH := hbig
    rw [sn_step data len x (by omega), if_neg hb2, if_neg hb3, if_pos hb4] at h
    simp at h
  | case5 x hx b hb hb192 hbig hoob =>
    intro e w h hag hlen
    have hb2 : ¬ byteAt data x = 0 := hb
    have hb3 : ¬ 192 ≤ byteAt data x := hb192
    have hb4 : ¬ byteAt data x > MAX_LABEL_LENGTH := hbig
    have hb5 : x + 1 + byteAt data x > len := hoob
    rw [sn_step data len x (by omega), if_neg hb2, if_neg hb3, if_neg hb4, if_pos hb5] at h
    simp at h
  | case6 x hx b hb hb192 hbig hoob hsub ih =>
    intro e w h hag hlen
    have hb2 : ¬ byteAt data x = 0 := hb
    have hb3 : ¬ 192 ≤ byteAt data x := hb192
    have hb4 : ¬ byteAt data x > MAX_LABEL_LENGTH := hbig
    have hb5 : ¬ x + 1 + byteAt data x > len := hoob
    have hsub2 : scanNoPtr data len (x + 1 + byteAt data x) = none := hsub
    rw [sn_step data len x (by omega), if_neg hb2, if_neg hb3, if_neg hb4, if_neg hb5,
      hsub2] at h
    simp at h
  | case7 x hx b hb hb192 hbig hoob e0 w0 hsub ih =>
    intro e w h hag hlen
    have hb2 : ¬ byteAt data x = 0 := hb
    have hb3 : ¬ 192 ≤ byteAt data x := hb192
    have hb4 : ¬ byteAt data x > MAX_LABEL_LENGTH := hbig
    have hb5 : ¬ x + 1 + byteAt data x > len := hoob
    have hsub2 : scanNoPtr data len (x + 1 + byteAt data x) = some (e0, w0) := hsub
    rw [sn_step data len x (by omega), if_neg hb2, if_neg hb3, if_neg hb4, if_neg hb5,
      hsub2] at h
    simp at h
    obtain ⟨he, hw⟩ := h
    have hsubB := scanNoPtr_bounds data len (x + 1 + byteAt data x) e0 w0 hsub2
    have hx0 : x < e := by omega
    have hbeq : byteAt data2 x = byteAt data x := hag x (by omega) hx0
    have hrec := ih e0 w0 hsub2
      (fun i hi1 hi2 => hag i (by omega) (by omega)) (by omega)
    rw [sn_step data2 len2 x (by omega), hbeq, if_neg hb2, if_neg hb3, if_neg hb4,
      if_neg (by omega), hrec]
    simp
    omega


/-- Counterexample to claim C3 as stated: on a packet whose QNAME is
one label followed by a compression pointer to a zero byte, parse
succeeds with name_wire_len = 3, while the claimed pre-jump accounting
(label bytes plus 2 for the ending pointer) gives 4. -/
theorem C3_cex :
    (parse c3pkt defaultParseResult).1 = .success ∧
    (parse c3pkt defaultParseResult).2.name_wire_len = 3 ∧
    claimedWireLen c3pkt c3pkt.length DNS_HEADER_SIZE = some 4 ∧
    (3 : Nat) ≠ 4 := by
  refine ⟨?_, ?_, ?_, by decide⟩
  · simp [parse, parseName, parseNameGo, byteAt, be16, c3pkt, MIN_DNS_QUERY_SIZE,
      DNS_HEADER_SIZE, MAX_LABELS, MAX_LABEL_LENGTH]
  · simp [parse, parseName, parseNameGo, byteAt, be16, c3pkt, MIN_DNS_QUERY_SIZE,
      DNS_HEADER_SIZE, MAX_LABELS, MAX_LABEL_LENGTH]
  · simp [claimedWireLen, byteAt, c3pkt, MAX_LABEL_LENGTH, DNS_HEADER_SIZE]

/-- Claim C3 as amended: for every packet whose QNAME is pointer-free
(scanNoPtr succeeds with wire count w), a successful parse stores
name_wire_len = w, and w agrees with the claimed original-bytes-plus-
terminator accounting; only QNAMEs that jump deviate. -/
theorem C3_thm : ∀ (data : List Nat) (r0 p : DNSParseResult) (e w : Nat),
    parse data r0 = (.success, p) →
    scanNoPtr data data.length DNS_HEADER_SIZE = some (e, w) →
    p.name_wire_len = w ∧
    claimedWireLen data data.length DNS_HEADER_SIZE = some w := by
  intro data r0 p e w hp hs
  obtain ⟨h17, hqd, hsucc, hpeq, hle⟩ := parse_success_inv data r0 p hp
  have hpn : parseName data data.length DNS_HEADER_SIZE = (.success, e, 0 + w) :=
    scanNoPtr_parseNameGo data data.length DNS_HEADER_SIZE e w hs DNS_HEADER_SIZE 0 0
      (by simp [MAX_LABELS])
  constructor
  · rw [hpeq]
    simp [hpn]
  · exact scanNoPtr_claimed data data.length DNS_HEADER_SIZE e w hs

/-- Witness for C3: the amended theorem applied to a concrete
pointer-free query. -/
theorem C3_wit :
    simpleParsed.name_wire_len = 3 ∧
    claimedWireLen simpleQuery simpleQuery.length DNS_HEADER_SIZE = some 3 :=
  C3_thm simpleQuery defaultParseResult simpleParsed 15 3
    (by simp [parse, parseName, parseNameGo, byteAt, be16, simpleQuery, simpleParsed,
      defaultParseResult, MIN_DNS_QUERY_SIZE, DNS_HEADER_SIZE, MAX_LABELS, MAX_LABEL_LENGTH])
    (by simp [scanNoPtr, byteAt, simpleQuery, MAX_LABEL_LENGTH, DNS_HEADER_SIZE])

theorem byteAt_set_ne (l : List Nat) (j v i : Nat) (h : i ≠ j) :
    byteAt (l.set j v) i = byteAt l i := by
  unfold byteAt
  rw [List.getD_eq_getElem?_getD, List.getD_eq_getElem?_getD, List.getElem?_set,
    if_neg (by omega)]

theorem byteAt_set_zero (l : List Nat) (j : Nat) : byteAt (l.set j 0) j = 0 := by
  unfold byteAt
  rw [List.getD_eq_getElem?_getD, List.getElem?_set, if_pos rfl]
  by_cases hj : j < l.length
  · simp [hj]
  · simp [hj]

theorem byteAt_write16_ne (l : List Nat) (j v i : Nat) (h1 : i ≠ j) (h2 : i ≠ j + 1) :
    byteAt (write16 l j v) i = byteAt l i := by
  unfold write16
  rw [byteAt_set_ne _ _ _ _ h2, byteAt_set_ne _ _ _ _ h1]

theorem byteAt_write16_zero_hi (l : List Nat) (j : Nat) :
    byteAt (write16 l j 0) j = 0 := by
  unfold write16
  rw [byteAt_set_ne _ _ _ _ (by omega)]
  exact byteAt_set_zero ..

theorem byteAt_write16_zero_lo (l : List Nat) (j : Nat) :
    byteAt (write16 l j 0) (j + 1) = 0 :=
  byteAt_set_zero ..

theorem byteAt_write32BE_ne (l : List Nat) (j v i : Nat)
    (h : i ≠ j ∧ i ≠ j + 1 ∧ i ≠ j + 2 ∧ i ≠ j + 3) :
    byteAt (write32BE l j v) i = byteAt l i := by
  unfold write32BE
  rw [byteAt_set_ne _ _ _ _ (by omega), byteAt_set_ne _ _ _ _ (by omega),
    byteAt_set_ne _ _ _ _ (by omega), byteAt_set_ne _ _ _ _ (by omega)]

theorem byteAt_write32LE_ne (l : List Nat) (j v i : Nat)
    (h : i ≠ j ∧ i ≠ j + 1 ∧ i ≠ j + 2 ∧ i ≠ j + 3) :
    byteAt (write32LE l j v) i = byteAt l i := by
  unfold write32LE
  rw [byteAt_set_ne _ _ _ _ (by omega), byteAt_set_ne _ _ _ _ (by omega),
    byteAt_set_ne _ _ _ _ (by omega), byteAt_set_ne _ _ _ _ (by omega)]

theorem byteAt_copyBytes_lt (src dst : List Nat) (n i : Nat) (h : i < n)
    (h2 : n ≤ src.length) :
    byteAt (copyBytes src n dst) i = byteAt src i := by
  unfold copyBytes byteAt
  have hlt : i < (List.take n src).length := by
    rw [List.length_take]
    omega
  rw [List.getD_eq_getElem?_getD, List.getD_eq_getElem?_getD, List.getElem?_append,
    if_pos hlt, List.getElem?_take, if_pos h]

theorem copyBytes_length (src dst : List Nat) (n : Nat) (h1 : n ≤ src.length)
    (h2 : n ≤ dst.length) :
    (copyBytes src n dst).length = dst.length := by
  unfold copyBytes
  rw [List.length_append, List.length_take, List.length_drop, Nat.min_eq_left h1]
  omega

theorem byteAt_writeList_lt (buf src : List Nat) (j i : Nat) (h : i < j)
    (hj : j ≤ buf.length) :
    byteAt (writeList buf j src) i = byteAt buf i := by
  unfold writeList byteAt
  have h1 : i < (List.take j buf).length := by
    rw [List.length_take]
    omega
  have h2 : i < (List.take j buf ++ src).length := by
    rw [List.length_append]
    omega
  rw [List.getD_eq_getElem?_getD, List.getD_eq_getElem?_getD,
    List.getElem?_append, if_pos h2, List.getElem?_append, if_pos h1,
    List.getElem?_take, if_pos h]

theorem write16_length (l : List Nat) (j v : Nat) :
    (write16 l j v).length = l.length := by
  simp [write16]

theorem write32BE_length (l : List Nat) (j v : Nat) :
    (write32BE l j v).length = l.length := by
  simp [write32BE]

theorem write32LE_length (l : List Nat) (j v : Nat) :
    (write32LE l j v).length = l.length := by
  simp [write32LE]

theorem writeList_length (buf src : List Nat) (j : Nat)
    (h : j + src.length ≤ buf.length) :
    (writeList buf j src).length = buf.length := by
  unfold writeList
  rw [List.length_append, List.length_append, List.length_take, List.length_drop,
    Nat.min_eq_left (by omega)]
  omega


theorem buildA_preserve (query : List Nat) (p : DNSParseResult) (ip ttl : Nat)
    (resp : List Nat) (i : Nat)
    (hc : p.total_consumed + 16 ≤ resp.length) (hq : p.total_consumed ≤ query.length)
    (hi : i < p.total_consumed) (h2 : i ≠ 2) (h3 : i ≠ 3) (h6 : i ≠ 6) (h7 : i ≠ 7) :
    byteAt (buildAResponse query p ip ttl resp).2 i = byteAt query i := by
  unfold buildAResponse
  rw [if_neg (by omega)]
  simp only
  rw [byteAt_write32LE_ne _ _ _ _ (by omega),
    byteAt_write16_ne _ _ _ _ (by omega) (by omega),
    byteAt_write32BE_ne _ _ _ _ (by omega),
    byteAt_write16_ne _ _ _ _ (by omega) (by omega),
    byteAt_write16_ne _ _ _ _ (by omega) (by omega),
    byteAt_set_ne _ _ _ _ (by omega),
    byteAt_set_ne _ _ _ _ (by omega),
    byteAt_write16_ne _ _ _ _ h6 (by omega),
    byteAt_write16_ne _ _ _ _ h2 (by omega),
    byteAt_copyBytes_lt _ _ _ _ hi hq]

theorem buildA_length (query : List Nat) (p : DNSParseResult) (ip ttl : Nat)
    (resp : List Nat)
    (hc : p.total_consumed + 16 ≤ resp.length) (hq : p.total_consumed ≤ query.length) :
    (buildAResponse query p ip ttl resp).2.length = resp.length := by
  unfold buildAResponse
  rw [if_neg (by omega)]
  simp only
  rw [write32LE_length, write16_length, write32BE_length, write16_length, write16_length,
    List.length_set, List.length_set, write16_length, write16_length,
    copyBytes_length _ _ _ hq (by omega)]

theorem buildAAAA_preserve (query : List Nat) (p : DNSParseResult) (ipv6 : List Nat)
    (ttl : Nat) (resp : List Nat) (i : Nat)
    (hc : p.total_consumed + 28 ≤ resp.length) (hq : p.total_consumed ≤ query.length)
    (hi : i < p.total_consumed) (h2 : i ≠ 2) (h3 : i ≠ 3) (h6 : i ≠ 6) (h7 : i ≠ 7) :
    byteAt (buildAAAAResponse query p ipv6 ttl resp).2 i = byteAt query i := by
  unfold buildAAAAResponse
  rw [if_neg (by omega)]
  simp only
  have hlen : (write16 (write32BE (write16 (write16 ((List.set (List.set
      (write16 (write16 (copyBytes query p.total_consumed resp) 2
        ((((be16 query 2 ||| 32768) ||| 1024) ||| 128) &&& 65520)) 6 1)
        p.total_consumed 192) (p.total_consumed + 1) DNS_HEADER_SIZE))
      (p.total_consumed + 2) 28) (p.total_consumed + 4) 1)
      (p.total_consumed + 6) ttl) (p.total_consumed + 10) 16).length = resp.length := by
    rw [write16_length, write32BE_length, write16_length, write16_length,
      List.length_set, List.length_set, write16_length, write16_length,
      copyBytes_length _ _ _ hq (by omega)]
  rw [byteAt_writeList_lt _ _ _ _ (by omega) (by rw [hlen]; omega),
    byteAt_write16_ne _ _ _ _ (by omega) (by omega),
    byteAt_write32BE_ne _ _ _ _ (by omega),
    byteAt_write16_ne _ _ _ _ (by omega) (by omega),
    byteAt_write16_ne _ _ _ _ (by omega) (by omega),
    byteAt_set_ne _ _ _ _ (by omega),
    byteAt_set_ne _ _ _ _ (by omega),
    byteAt_write16_ne _ _ _ _ h6 (by omega),
    byteAt_write16_ne _ _ _ _ h2 (by omega),
    byteAt_copyBytes_lt _ _ _ _ hi hq]

theorem buildNX_counts (query : List Nat) (p : DNSParseResult) (resp : List Nat)
    (hc : p.total_consumed ≤ resp.length) :
    byteAt (buildNXDomain query p resp).2 8 = 0 ∧
    byteAt (buildNXDomain query p resp).2 9 = 0 ∧
    byteAt (buildNXDomain query p resp).2 10 = 0 ∧
    byteAt (buildNXDomain query p resp).2 11 = 0 := by
  unfold buildNXDomain
  rw [if_neg (by omega)]
  simp only
  refine ⟨?_, ?_, ?_, ?_⟩
  · rw [byteAt_write16_ne _ _ _ _ (by omega) (by omega)]
    exact byteAt_write16_zero_hi ..
  · rw [byteAt_write16_ne _ _ _ _ (by omega) (by omega)]
    exact byteAt_write16_zero_lo ..
  · exact byteAt_write16_zero_hi ..
  · exact byteAt_write16_zero_lo ..

theorem buildRefused_counts (query : List Nat) (p : DNSParseResult) (resp : List Nat)
    (hc : p.total_consumed ≤ resp.length) :
    byteAt (buildRefused query p resp).2 8 = 0 ∧
    byteAt (buildRefused query p resp).2 9 = 0 ∧
    byteAt (buildRefused query p resp).2 10 = 0 ∧
    byteAt (buildRefused query p resp).2 11 = 0 := by
  unfold buildRefused
  rw [if_neg (by omega)]
  simp only
  refine ⟨?_, ?_, ?_, ?_⟩
  · rw [byteAt_write16_ne _ _ _ _ (by omega) (by omega)]
    exact byteAt_write16_zero_hi ..
  · rw [byteAt_write16_ne _ _ _ _ (by omega) (by omega)]
    exact byteAt_write16_zero_lo ..
  · exact byteAt_write16_zero_hi ..
  · exact byteAt_write16_zero_lo ..

theorem parse_total_ge (data : List Nat) (r0 p : DNSParseResult)
    (h : parse data r0 = (.success, p)) :
    17 ≤ p.total_consumed ∧ p.total_consumed ≤ data.length := by
  obtain ⟨h17, hqd, hsucc, hpeq, hle⟩ := parse_success_inv data r0 p h
  have htrip : parseNameGo data data.length DNS_HEADER_SIZE DNS_HEADER_SIZE false 0 0 =
      (.success, (parseName data data.length DNS_HEADER_SIZE).2.1,
        (parseName data data.length DNS_HEADER_SIZE).2.2) := by
    rw [← hsucc]
    rfl
  have hend := parseNameGo_end_ge data data.length
    (parseName data data.length DNS_HEADER_SIZE).2.1
    (parseName data data.length DNS_HEADER_SIZE).2.2
    DNS_HEADER_SIZE DNS_HEADER_SIZE false 0 0 htrip
  simp only [DNS_HEADER_SIZE] at hend hle hpeq
  simp at hend
  rw [hpeq]
  simp
  omega


/-- Claim C4 as amended: buildNXDomain and buildRefused zero the
ns_count and ar_count header bytes 8-11 of the response, while
buildAResponse and buildAAAAResponse leave those bytes at the values
copied from the original query. -/
theorem C4_thm : ∀ (query : List Nat) (r0 p : DNSParseResult) (ip ttl : Nat)
    (ipv6 resp : List Nat),
    parse query r0 = (.success, p) →
    p.total_consumed + 28 ≤ resp.length →
    ((byteAt (buildNXDomain query p resp).2 8 = 0 ∧
      byteAt (buildNXDomain query p resp).2 9 = 0 ∧
      byteAt (buildNXDomain query p resp).2 10 = 0 ∧
      byteAt (buildNXDomain query p resp).2 11 = 0) ∧
     (byteAt (buildRefused query p resp).2 8 = 0 ∧
      byteAt (buildRefused query p resp).2 9 = 0 ∧
      byteAt (buildRefused query p resp).2 10 = 0 ∧
      byteAt (buildRefused query p resp).2 11 = 0) ∧
     (∀ i, 8 ≤ i → i ≤ 11 →
        byteAt (buildAResponse query p ip ttl resp).2 i = byteAt query i) ∧
     (∀ i, 8 ≤ i → i ≤ 11 →
        byteAt (buildAAAAResponse query p ipv6 ttl resp).2 i = byteAt query i)) := by
  intro query r0 p ip ttl ipv6 resp hp hr
  obtain ⟨htc, hql⟩ := parse_total_ge query r0 p hp
  refine ⟨buildNX_counts query p resp (by omega),
    buildRefused_counts query p resp (by omega), ?_, ?_⟩
  · intro i h8 h11
    exact buildA_preserve query p ip ttl resp i (by omega) hql (by omega)
      (by omega) (by omega) (by omega) (by omega)
  · intro i h8 h11
    exact buildAAAA_preserve query p ipv6 ttl resp i (by omega) hql (by omega)
      (by omega) (by omega) (by omega) (by omega)

/-- Counterexample to claim C4 as stated: for a parseable query with
ns_count = 1 and ar_count = 2, the buildAResponse output still has
ns_count = 1 and ar_count = 2 rather than 0. -/
theorem C4_cex :
    parse c4query defaultParseResult = (.success, c4parsed) ∧
    byteAt (buildAResponse c4query c4parsed 0 300 (List.replicate 64 0)).2 9 = 1 ∧
    byteAt (buildAResponse c4query c4parsed 0 300 (List.replicate 64 0)).2 11 = 2 := by
  refine ⟨?_, by decide, by decide⟩
  simp [parse, parseName, parseNameGo, byteAt, be16, c4query, c4parsed,
    defaultParseResult, MIN_DNS_QUERY_SIZE, DNS_HEADER_SIZE, MAX_LABELS, MAX_LABEL_LENGTH]

/-- Witness for C4: the amended theorem applied to a concrete query. -/
theorem C4_wit :
    byteAt (buildNXDomain simpleQuery simpleParsed (List.replicate 64 0)).2 8 = 0 ∧
    byteAt (buildAResponse simpleQuery simpleParsed 7 300 (List.replicate 64 0)).2 8 =
      byteAt simpleQuery 8 :=
  have h := C4_thm simpleQuery defaultParseResult simpleParsed 7 300
    (List.replicate 16 1) (List.replicate 64 0)
    (by simp [parse, parseName, parseNameGo, byteAt, be16, simpleQuery, simpleParsed,
      defaultParseResult, MIN_DNS_QUERY_SIZE, DNS_HEADER_SIZE, MAX_LABELS, MAX_LABEL_LENGTH])
    (by decide)
  ⟨h.1.1, h.2.2.1 8 (by decide) (by decide)⟩


theorem dn_step (packet : List Nat) (plen offset : Nat) (buf : List Nat)
    (bufSize jc : Nat) (first : Bool) (h1 : jc < MAX_LABELS) (h2 : offset < plen) :
    decodeNameGo packet plen offset buf bufSize jc first =
      if byteAt packet offset = 0 then (.success, buf)
      else if 192 ≤ byteAt packet offset then
        if offset + 1 ≥ plen then (.truncatedMessage, buf)
        else
          decodeNameGo packet plen
            ((byteAt packet offset % 64) * 256 + byteAt packet (offset + 1))
            buf bufSize (jc + 1) first
      else if first = false ∧ buf.length ≥ bufSize then (.bufferTooSmall, buf)
      else
        if (if first then buf else buf ++ [46]).length + byteAt packet offset > bufSize then
          (.bufferTooSmall, if first then buf else buf ++ [46])
        else
          decodeNameGo packet plen (offset + 1 + byteAt packet offset)
            ((if first then buf else buf ++ [46]) ++
              (List.range (byteAt packet offset)).map
                (fun i => toLowerB (byteAt packet (offset + 1 + i))))
            bufSize jc false := by
  rw [decodeNameGo, dif_pos h1, dif_neg (by omega)]

theorem decodeNameGo_agree (data data2 : List Nat) (len len2 e : Nat)
    (hlen2 : e ≤ len2) :
    ∀ (offset : Nat) (w : Nat),
      scanNoPtr data len offset = some (e, w) →
      (∀ i, offset ≤ i → i < e → byteAt data2 i = byteAt data i) →
      ∀ (buf : List Nat) (bufSize jc : Nat) (first : Bool),
        decodeNameGo data2 len2 offset buf bufSize jc first =
          decodeNameGo data len offset buf bufSize jc first := by
  intro offset
  induction offset using scanNoPtr.induct data len with
  | case1 x hx =>
    intro w h hag buf bufSize jc first
    rw [scanNoPtr, dif_pos hx] at h
    simp at h
  | case2 x hx b hb =>
    intro w h hag buf bufSize jc first
    have hb2 : byteAt data x = 0 := hb
    rw [sn_step data len x (by omega), if_pos hb2] at h
    simp at h
    obtain ⟨he, hw⟩ := h
    have hbeq : byteAt data2 x = byteAt data x := hag x (by omega) (by omega)
    by_cases hjc : jc < MAX_LABELS
    · rw [dn_step data2 len2 x buf bufSize jc first hjc (by omega),
        dn_step data len x buf bufSize jc first hjc (by omega),
        hbeq, if_pos hb2, if_pos hb2]
    · rw [decodeNameGo, dif_neg hjc, decodeNameGo, dif_neg hjc]
  | case3 x hx b hb hb192 =>
    intro w h hag buf bufSize jc first
    have hb2 : ¬ byteAt data x = 0 := hb
    have hb3 : 192 ≤ byteAt data x := hb192
    rw [sn_step data len x (by omega), if_neg hb2, if_pos hb3] at h
    simp at h
  | case4 x hx b hb hb192 hbig =>
    intro w h hag buf bufSize jc first
    have hb2 : ¬ byteAt data x = 0 := hb
    have hb3 : ¬ 192 ≤ byteAt data x := hb192
    have hb4 : byteAt data x > MAX_LABEL_LENGTH := hbig
    rw [sn_step data len x (by omega), if_neg hb2, if_neg hb3, if_pos hb4] at h
    simp at h
  | case5 x hx b hb hb192 hbig hoob =>
    intro w h hag buf bufSize jc first
    have hb2 : ¬ byteAt data x = 0 := hb
    have hb3 : ¬ 192 ≤ byteAt data x := hb192
    have hb4 : ¬ byteAt data x > MAX_LABEL_LENGTH := hbig
    have hb5 : x + 1 + byteAt data x > len := hoob
    rw [sn_step data len x (by omega), if_neg hb2, if_neg hb3, if_neg hb4, if_pos hb5] at h
    simp at h
  | case6 x hx b hb hb192 hbig hoob hsub ih =>
    intro w h hag buf bufSize jc first
    have hb2 : ¬ byteAt data x = 0 := hb
    have hb3 : ¬ 192 ≤ byteAt data x := hb192
    have hb4 : ¬ byteAt data x > MAX_LABEL_LENGTH := hbig
    have hb5 : ¬ x + 1 + byteAt data x > len := hoob
    have hsub2 : scanNoPtr data len (x + 1 + byteAt data x) = none := hsub
    rw [sn_step data len x (by omega), if_neg hb2, if_neg hb3, if_neg hb4, if_neg hb5,
      hsub2] at h
    simp at h
  | case7 x hx b hb hb192 hbig hoob e0 w0 hsub ih =>
    intro w h hag buf bufSize jc first
    have hb2 : ¬ byteAt data x = 0 := hb
    have hb3 : ¬ 192 ≤ byteAt data x := hb192
    have hb4 : ¬ byteAt data x > MAX_LABEL_LENGTH := hbig
    have hb5 : ¬ x + 1 + byteAt data x > len := hoob
    have hsub2 : scanNoPtr data len (x + 1 + byteAt data x) = some (e0, w0) := hsub
    rw [sn_step data len x (by omega), if_neg hb2, if_neg hb3, if_neg hb4, if_neg hb5,
      hsub2] at h
    simp at h
    obtain ⟨he0, hw0⟩ := h
    subst he0
    have hsubB := scanNoPtr_bounds data len (x + 1 + byteAt data x) e0 w0 hsub2
    have hbeq : byteAt data2 x = byteAt data x := hag x (by omega) (by omega)
    have hmap : (List.range (byteAt data x)).map
        (fun i => toLowerB (byteAt data2 (x + 1 + i))) =
        (List.range (byteAt data x)).map
          (fun i => toLowerB (byteAt data (x + 1 + i))) := by
      refine List.map_congr_left ?_
      intro i hi
      rw [List.mem_range] at hi
      rw [hag (x + 1 + i) (by omega) (by omega)]
    have hrec := ih w0 hsub2 (fun i hi1 hi2 => hag i (by omega) (by omega))
    by_cases hjc : jc < MAX_LABELS
    · rw [dn_step data2 len2 x buf bufSize jc first hjc (by omega),
        dn_step data len x buf bufSize jc first hjc (by omega), hbeq]
      simp only [if_neg hb2, if_neg hb3]
      by_cases hsmall : first = false ∧ buf.length ≥ bufSize
      · simp only [if_pos hsmall]
      · simp only [if_neg hsmall]
        by_cases hfit : (if first then buf else buf ++ [46]).length + byteAt data x > bufSize
        · simp only [if_pos hfit]
        · simp only [if_neg hfit, hmap]
          exact hrec _ bufSize jc false
    · rw [decodeNameGo, dif_neg hjc, decodeNameGo, dif_neg hjc]


theorem byteAt_take_lt (l : List Nat) (n i : Nat) (h : i < n) :
    byteAt (l.take n) i = byteAt l i := by
  unfold byteAt
  rw [List.getD_eq_getElem?_getD, List.getD_eq_getElem?_getD, List.getElem?_take, if_pos h]

theorem parse_success_intro (data : List Nat) (r0 : DNSParseResult) (e w : Nat)
    (h17 : MIN_DNS_QUERY_SIZE ≤ data.length) (hqd : be16 data 4 ≠ 0)
    (hpn : parseName data data.length DNS_HEADER_SIZE = (.success, e, w))
    (hle : e + 4 ≤ data.length) :
    parse data r0 = (.success,
      { name_offset := DNS_HEADER_SIZE, name_wire_len := w, qtype := be16 data e,
        qclass := be16 data (e + 2), total_consumed := e + 4, question_end := e + 4,
        id := be16 data 0, flags := be16 data 2,
        is_query := decide (be16 data 2 < 32768) }) := by
  have h1 : ¬ data.length < MIN_DNS_QUERY_SIZE := by omega
  have h4 : ¬ (e + 4 > data.length) := by omega
  simp [parse, h1, hqd, hpn, h4]

/-- Claim C8 as amended: for every successfully parsed query whose
QNAME is pointer-free, parsing the buildAResponse output (the first
total_consumed + 16 bytes of a large enough buffer) succeeds and
yields the same qtype, the same qclass and the same decodeName result
as the original query. -/
theorem C8_thm : ∀ (q : List Nat) (r0 r1 p : DNSParseResult) (ip ttl : Nat)
    (resp : List Nat) (e w : Nat),
    parse q r0 = (.success, p) →
    scanNoPtr q q.length DNS_HEADER_SIZE = some (e, w) →
    p.total_consumed + 16 ≤ resp.length →
    ((parse ((buildAResponse q p ip ttl resp).2.take (p.total_consumed + 16)) r1).1 =
        .success ∧
     (parse ((buildAResponse q p ip ttl resp).2.take (p.total_consumed + 16)) r1).2.qtype =
        p.qtype ∧
     (parse ((buildAResponse q p ip ttl resp).2.take (p.total_consumed + 16)) r1).2.qclass =
        p.qclass ∧
     decodeName ((buildAResponse q p ip ttl resp).2.take (p.total_consumed + 16))
        ((buildAResponse q p ip ttl resp).2.take (p.total_consumed + 16)).length
        DNS_HEADER_SIZE 256 =
       decodeName q q.length DNS_HEADER_SIZE 256) := by
  intro q r0 r1 p ip ttl resp e w hp hscan hresp
  obtain ⟨h17, hqd, hsucc, hpeq, hle⟩ := parse_success_inv q r0 p hp
  have hpn : parseName q q.length DNS_HEADER_SIZE = (.success, e, 0 + w) :=
    scanNoPtr_parseNameGo q q.length DNS_HEADER_SIZE e w hscan DNS_HEADER_SIZE 0 0
      (by simp [MAX_LABELS])
  have hbounds := scanNoPtr_bounds q q.length DNS_HEADER_SIZE e w hscan
  have h12e : 12 < e := by
    have := hbounds.1
    simpa [DNS_HEADER_SIZE] using this
  have he1 : (parseName q q.length DNS_HEADER_SIZE).2.1 = e := by rw [hpn]
  have hw1 : (parseName q q.length DNS_HEADER_SIZE).2.2 = 0 + w := by rw [hpn]
  have htc : p.total_consumed = e + 4 := by
    rw [hpeq]
    simp [he1]
  have hq1 : p.total_consumed ≤ q.length := by
    rw [he1] at hle
    omega
  have h17q : 17 ≤ q.length := by
    simpa [MIN_DNS_QUERY_SIZE] using h17
  have hblen : (buildAResponse q p ip ttl resp).2.length = resp.length :=
    buildA_length q p ip ttl resp hresp hq1
  have holen : ((buildAResponse q p ip ttl resp).2.take (p.total_consumed + 16)).length =
      p.total_consumed + 16 := by
    rw [List.length_take, hblen]
    omega
  have hpres : ∀ i, i < p.total_consumed → i ≠ 2 → i ≠ 3 → i ≠ 6 → i ≠ 7 →
      byteAt ((buildAResponse q p ip ttl resp).2.take (p.total_consumed + 16)) i =
        byteAt q i := by
    intro i hi k2 k3 k6 k7
    rw [byteAt_take_lt _ _ _ (by omega)]
    exact buildA_preserve q p ip ttl resp i hresp hq1 hi k2 k3 k6 k7
  have hscan_out : scanNoPtr ((buildAResponse q p ip ttl resp).2.take (p.total_consumed + 16))
      ((buildAResponse q p ip ttl resp).2.take (p.total_consumed + 16)).length
      DNS_HEADER_SIZE = some (e, w) :=
    scanNoPtr_agree q ((buildAResponse q p ip ttl resp).2.take (p.total_consumed + 16))
      q.length ((buildAResponse q p ip ttl resp).2.take (p.total_consumed + 16)).length
      DNS_HEADER_SIZE e w hscan
      (fun i hi1 hi2 => hpres i (by omega) (by simp [DNS_HEADER_SIZE] at hi1; omega)
        (by simp [DNS_HEADER_SIZE] at hi1; omega) (by simp [DNS_HEADER_SIZE] at hi1; omega)
        (by simp [DNS_HEADER_SIZE] at hi1; omega))
      (by rw [holen]; omega)
  have hpn_out : parseName ((buildAResponse q p ip ttl resp).2.take (p.total_consumed + 16))
      ((buildAResponse q p ip ttl resp).2.take (p.total_consumed + 16)).length
      DNS_HEADER_SIZE = (.success, e, 0 + w) :=
    scanNoPtr_parseNameGo _ _ DNS_HEADER_SIZE e w hscan_out DNS_HEADER_SIZE 0 0
      (by simp [MAX_LABELS])
  have hbe : ∀ i, 4 ≤ i → i + 1 < p.total_consumed → i ≠ 6 → i + 1 ≠ 6 → i ≠ 7 → i + 1 ≠ 7 →
      be16 ((buildAResponse q p ip ttl resp).2.take (p.total_consumed + 16)) i = be16 q i := by
    intro i hi4 hi k6 k6b k7 k7b
    unfold be16
    rw [hpres i (by omega) (by omega) (by omega) k6 k7,
      hpres (i + 1) (by omega) (by omega) (by omega) k6b k7b]
  have hqd_out : be16 ((buildAResponse q p ip ttl resp).2.take (p.total_consumed + 16)) 4 ≠ 0 := by
    rw [hbe 4 (by omega) (by omega) (by omega) (by omega) (by omega) (by omega)]
    exact hqd
  have hps := parse_success_intro
    ((buildAResponse q p ip ttl resp).2.take (p.total_consumed + 16)) r1 e (0 + w)
    (by rw [holen]; simp [MIN_DNS_QUERY_SIZE]; omega) hqd_out hpn_out
    (by rw [holen]; omega)
  refine ⟨by rw [hps], ?_, ?_, ?_⟩
  · rw [hps]
    simp only
    rw [hbe e (by omega) (by omega) (by omega) (by omega) (by omega) (by omega), hpeq]
    simp [he1]
  · rw [hps]
    simp only
    rw [hbe (e + 2) (by omega) (by omega) (by omega) (by omega) (by omega) (by omega), hpeq]
    simp [he1]
  · exact decodeNameGo_agree q
      ((buildAResponse q p ip ttl resp).2.take (p.total_consumed + 16)) q.length
      ((buildAResponse q p ip ttl resp).2.take (p.total_consumed + 16)).length e
      (by rw [holen]; omega) DNS_HEADER_SIZE w hscan
      (fun i hi1 hi2 => hpres i (by omega) (by simp [DNS_HEADER_SIZE] at hi1; omega)
        (by simp [DNS_HEADER_SIZE] at hi1; omega) (by simp [DNS_HEADER_SIZE] at hi1; omega)
        (by simp [DNS_HEADER_SIZE] at hi1; omega))
      [] 256 0 true


/-- Counterexample to claim C8 as stated: a query whose QNAME is a
compression pointer to offset 36 parses successfully, but the A
response built from it is only 34 bytes, so reparsing the response
fails with PointerLoop instead of yielding the same question. -/
theorem C8_cex :
    parse c8query defaultParseResult = (.success, c8parsed) ∧
    (parse ((buildAResponse c8query c8parsed 0 300 (List.replicate 34 0)).2.take 34)
      defaultParseResult).1 = .pointerLoop := by
  constructor
  · simp [parse, parseName, parseNameGo, byteAt, be16, c8query, c8parsed, defaultParseResult,
      MIN_DNS_QUERY_SIZE, DNS_HEADER_SIZE, MAX_LABELS, MAX_LABEL_LENGTH]
  · have hout : ((buildAResponse c8query c8parsed 0 300 (List.replicate 34 0)).2.take 34) =
        [0, 0, 133, 128, 0, 1, 0, 1, 0, 0, 0, 0, 192, 36, 0, 1, 0, 1,
         192, 12, 0, 1, 0, 1, 0, 0, 1, 44, 0, 4, 0, 0, 0, 0] := by decide
    rw [hout]
    simp [parse, parseName, parseNameGo, byteAt, be16, defaultParseResult,
      MIN_DNS_QUERY_SIZE, DNS_HEADER_SIZE, MAX_LABELS, MAX_LABEL_LENGTH]

/-- Witness for C8: the amended round trip applied to a concrete
pointer-free query. -/
theorem C8_wit :
    (parse ((buildAResponse simpleQuery simpleParsed 7 300 (List.replicate 35 0)).2.take
      (simpleParsed.total_consumed + 16)) defaultParseResult).1 = .success :=
  (C8_thm simpleQuery defaultParseResult defaultParseResult simpleParsed 7 300
    (List.replicate 35 0) 15 3
    (by simp [parse, parseName, parseNameGo, byteAt, be16, simpleQuery, simpleParsed,
      defaultParseResult, MIN_DNS_QUERY_SIZE, DNS_HEADER_SIZE, MAX_LABELS, MAX_LABEL_LENGTH])
    (by simp [scanNoPtr, byteAt, simpleQuery, MAX_LABEL_LENGTH, DNS_HEADER_SIZE])
    (by decide)).1

end XdpDns
